import Mathlib

/-!
Verification of the Golf card game engine (`golf-game.py`).

Cards are the strings `"<RANK>-<SUIT>"` exactly as in the source.  Python
lists used as stacks (`deck`, `discard_pile`) push and pop at their end; we
represent them as Lean lists whose *head* is the top of the stack, so
`list.pop()` becomes pattern matching on `top :: rest` and `list.append(c)`
becomes `c :: rest`.  `random.shuffle` is modelled by an explicit `shuffle`
parameter, used under the hypothesis that it permutes its input, and
`random.choice` by an index supplied by a choice oracle.
-/

namespace Golf

/-- `card.split('-')[0]`: the rank part of a card string (`get_card_value`,
line 69). -/
def rank_of (card : String) : String :=
  (card.toList.takeWhile (fun ch => ch ≠ '-')).asString

/-- `value.isdigit()` for the rank strings that occur here: nonempty and all
characters are digits. -/
def is_digit_str (s : String) : Bool :=
  !s.toList.isEmpty && s.toList.all (fun ch => ch.isDigit)

/-- `int(value)` on a digit string. -/
def digits_to_nat (s : String) : Nat :=
  s.toList.foldl (fun n ch => 10 * n + (ch.toNat - 48)) 0

/-- `GolfGame.get_card_value` (lines 58-77). -/
def get_card_value (card : String) : Nat :=
  let value := rank_of card
  if is_digit_str value then digits_to_nat value
  else if value = "J" ∨ value = "Q" ∨ value = "A" then 10
  else if value = "K" then 0
  else 0

/-- `card_values` of `_create_shuffled_deck` (line 45): the 13 ranks. -/
def card_ranks : List String :=
  (List.range' 2 9).map toString ++ ["J", "Q", "K", "A"]

/-- `suits` (line 46). -/
def suits : List String := ["H", "D", "C", "S"]

/-- The unshuffled 52-card deck (line 47), ranks outer, suits inner. -/
def full_deck_list : List String :=
  card_ranks.flatMap (fun v => suits.map (fun s => v ++ "-" ++ s))

/-- `GolfGame._calculate_score` (lines 79-108). -/
def calculate_score (hand : List String) : Nat :=
  let card_values := hand.map rank_of
  let distinct_values := card_values.dedup
  distinct_values.foldl
    (fun total value =>
      let count := card_values.count value
      if count = 2 then total
      else if count > 2 then
        (let remaining_cards := count % 2
         if remaining_cards > 0 then
           total + get_card_value (value ++ "-X") * remaining_cards
         else total)
      else total + get_card_value (value ++ "-X"))
    0

/-! The game state and the player moves. -/

/-- The mutable fields of a `Player` object (lines 159-167): `face_up_indices`
is the Python set of revealed slot indices. -/
structure PlayerState where
  name : String
  hand : List String
  face_up_indices : Finset Nat
deriving DecidableEq

/-- The mutable fields of a `GolfGame` object (lines 34-36 and `players`). -/
structure GameState where
  deck : List String
  discard_pile : List String
  players : List PlayerState
  is_game_over : Bool
deriving DecidableEq

/-- The three choices offered by `_choose_action`: `'s'` (take the discard
top), `'d'` (draw from the deck), `'t'` (only turn a card over). -/
inductive Action where
  | swap_discard
  | draw
  | turnover
deriving DecidableEq

/-- One turn's worth of randomness for `RandomPlayer`: the action, the
swap-or-discard choice, the slot picked by `random.choice`, and the
permutation applied by `random.shuffle` on a reshuffle. -/
structure MoveChoice where
  action : Action
  swap : Bool
  pick : Nat
  shuffle : List String → List String

/-- `random.choice(l)` on a nonempty list, driven by the oracle value
`pick`: an arbitrary element selected by index. -/
def pick_from (pick : Nat) (l : List Nat) : Nat :=
  l.getD (pick % l.length) 0

/-- The reshuffle of `_draw_or_take_card` (lines 363-367): the deck becomes a
shuffle of every discard card but the top (`discard_pile[:-1]`), the discard
pile is reset to the single top card.  The caller has already split the
discard pile into `top :: rest`. -/
def reshuffle (shuffle : List String → List String) (top : String)
    (rest : List String) : List String × List String :=
  (shuffle rest, [top])

/-- `_draw_or_take_card` (lines 361-376, identical in `HumanPlayer`,
`RandomPlayer` and `GreedyPlayer`): returns the obtained card (if any) and
the updated deck and discard pile; `none` models the `IndexError` of
`deck.pop()` on an empty list. -/
def draw_or_take (shuffle : List String → List String) (action : Action)
    (deck : List String) (top : String) (rest : List String) :
    Option (Option String × List String × List String) :=
  match action with
  | Action.draw =>
      let (deck1, discard1) :=
        if deck.isEmpty then reshuffle shuffle top rest else (deck, top :: rest)
      match deck1 with
      | [] => none
      | drawn :: deck2 => some (some drawn, deck2, discard1)
  | Action.swap_discard => some (some top, deck, rest)
  | Action.turnover => some (none, deck, top :: rest)

/-- `RandomPlayer._turn_card_over` (lines 395-402): reveal a face-down slot
chosen by `random.choice`; a no-op when every slot is already face up. -/
def random_turn_card_over (pick : Nat) (face_down : List Nat)
    (fu : Finset Nat) : Finset Nat :=
  if face_down.isEmpty then fu
  else insert (pick_from pick face_down) fu

/-- `RandomPlayer._swap_card` (lines 381-393): swap the drawn card into a
face-down slot chosen by `random.choice`, discarding the replaced card and
revealing the slot; with no face-down slot the drawn card is discarded. -/
def random_swap_card (pick : Nat) (drawn : String) (face_down : List Nat)
    (hand : List String) (fu : Finset Nat) (discard : List String) :
    List String × Finset Nat × List String :=
  if face_down.isEmpty then (hand, fu, drawn :: discard)
  else
    let swap_idx := pick_from pick face_down
    let discarded_card := hand.getD swap_idx ""
    (hand.set swap_idx drawn, insert swap_idx fu, discarded_card :: discard)

/-- `RandomPlayer.make_move` (lines 338-356).  `none` models the `IndexError`
of `discard_pile[-1]` on an empty pile or of a pop from an empty deck; the
result carries the updated deck, discard pile and player, and the returned
`len(self.face_up_indices) == 4` flag. -/
def random_make_move (c : MoveChoice) (deck discard : List String)
    (p : PlayerState) : Option (List String × List String × PlayerState × Bool) :=
  match discard with
  | [] => none
  | top :: rest =>
    let face_down := (List.range 4).filter (fun i => i ∉ p.face_up_indices)
    match draw_or_take c.shuffle c.action deck top rest with
    | none => none
    | some (drawn_opt, deck1, discard1) =>
      match c.action, drawn_opt with
      | Action.turnover, _ =>
          let fu := random_turn_card_over c.pick face_down p.face_up_indices
          some (deck1, discard1, { p with face_up_indices := fu }, fu.card == 4)
      | _, some drawn =>
          if c.swap then
            let (hand1, fu1, discard2) :=
              random_swap_card c.pick drawn face_down p.hand p.face_up_indices discard1
            some (deck1, discard2,
              { p with hand := hand1, face_up_indices := fu1 }, fu1.card == 4)
          else
            let fu := random_turn_card_over c.pick face_down p.face_up_indices
            some (deck1, drawn :: discard1,
              { p with face_up_indices := fu }, fu.card == 4)
      | _, none =>
          -- dead in the source: `'s'` and `'d'` always produce a card
          some (deck1, discard1, p, p.face_up_indices.card == 4)

/-- `GreedyPlayer._choose_action` (lines 433-439). -/
def greedy_choose_action (top : String) : Action :=
  if get_card_value top < 6 then Action.swap_discard else Action.draw

/-- `GreedyPlayer._choose_swap_or_discard` (lines 458-464): `true` means
swap (`'s'`). -/
def greedy_choose_swap_or_discard (drawn : String) : Bool :=
  decide (get_card_value drawn < 6)

/-- The loop body of `GreedyPlayer._swap_card` (lines 476-480): keep the
running `(max_val, swap_idx)` pair unless this slot's card value beats it. -/
def greedy_max_step (hand : List String) (acc : Int × Nat) (idx : Nat) :
    Int × Nat :=
  let card_value := get_card_value (hand.getD idx "")
  if (card_value : Int) > acc.1 then ((card_value : Int), idx) else acc

/-- The selection loop of `GreedyPlayer._swap_card` (lines 474-480): the
first face-down slot holding the card of strictly greatest value.  The
Python sentinel `max_val = -1` is always beaten by the first slot because
card values are nonnegative, so the sentinel index is never read. -/
def greedy_swap_target (hand : List String) (face_down : List Nat) : Nat :=
  (face_down.foldl (greedy_max_step hand) (-1, 0)).2

/-- The loop body of `GreedyPlayer._turn_card_over` (lines 494-498): keep
the running `(min_val, turn_over_idx)` pair unless this slot's card value is
below it. -/
def greedy_min_step (hand : List String) (acc : Nat × Nat) (idx : Nat) :
    Nat × Nat :=
  let card_value := get_card_value (hand.getD idx "")
  if card_value < acc.1 then (card_value, idx) else acc

/-- The selection loop of `GreedyPlayer._turn_card_over` (lines 492-498):
the first face-down slot holding the card of strictly least value, starting
from the sentinel `min_val = 999`. -/
def greedy_turn_target (hand : List String) (face_down : List Nat) : Nat :=
  (face_down.foldl (greedy_min_step hand) (999, 0)).2

/-- `GreedyPlayer._swap_card` (lines 466-485). -/
def greedy_swap_card (drawn : String) (face_down : List Nat)
    (hand : List String) (fu : Finset Nat) (discard : List String) :
    List String × Finset Nat × List String :=
  if face_down.isEmpty then (hand, fu, drawn :: discard)
  else
    let swap_idx := greedy_swap_target hand face_down
    let discarded_card := hand.getD swap_idx ""
    (hand.set swap_idx drawn, insert swap_idx fu, discarded_card :: discard)

/-- `GreedyPlayer._turn_card_over` (lines 487-501). -/
def greedy_turn_card_over (hand : List String) (face_down : List Nat)
    (fu : Finset Nat) : Finset Nat :=
  if face_down.isEmpty then fu
  else insert (greedy_turn_target hand face_down) fu

/-- `GreedyPlayer.make_move` (lines 413-431). -/
def greedy_make_move (shuffle : List String → List String)
    (deck discard : List String) (p : PlayerState) :
    Option (List String × List String × PlayerState × Bool) :=
  match discard with
  | [] => none
  | top :: rest =>
    let face_down := (List.range 4).filter (fun i => i ∉ p.face_up_indices)
    let action := greedy_choose_action top
    match draw_or_take shuffle action deck top rest with
    | none => none
    | some (drawn_opt, deck1, discard1) =>
      match action, drawn_opt with
      | Action.turnover, _ =>
          -- dead in the source: the greedy player never chooses 't'
          let fu := greedy_turn_card_over p.hand face_down p.face_up_indices
          some (deck1, discard1, { p with face_up_indices := fu }, fu.card == 4)
      | _, some drawn =>
          if greedy_choose_swap_or_discard drawn then
            let (hand1, fu1, discard2) :=
              greedy_swap_card drawn face_down p.hand p.face_up_indices discard1
            some (deck1, discard2,
              { p with hand := hand1, face_up_indices := fu1 }, fu1.card == 4)
          else
            let fu := greedy_turn_card_over p.hand face_down p.face_up_indices
            some (deck1, drawn :: discard1,
              { p with face_up_indices := fu }, fu.card == 4)
      | _, none =>
          some (deck1, discard1, p, p.face_up_indices.card == 4)

/-! The game engine. -/

/-- `GolfGame._deal_cards` (lines 51-56): each player in order pops four
cards off the deck into a fresh face-down hand. -/
def deal_hands (deck : List String) :
    List PlayerState → List PlayerState × List String
  | [] => ([], deck)
  | p :: ps =>
      let hand := deck.take 4
      let deck1 := deck.drop 4
      let (rest, deck2) := deal_hands deck1 ps
      ({ p with hand := hand, face_up_indices := ∅ } :: rest, deck2)

/-- Seeding the discard pile (`play_game` lines 116-120): `none` models the
`"Not enough cards to play."` early return on an empty deck. -/
def seed_discard (s : GameState) : Option GameState :=
  match s.deck with
  | [] => none
  | c :: rest => some { s with deck := rest, discard_pile := [c] }

/-- The default players built by `__init__` (line 24). -/
def initial_players (n : Nat) : List PlayerState :=
  (List.range n).map
    (fun i => { name := "Player " ++ toString (i + 1), hand := [],
                face_up_indices := ∅ })

/-- Dealing plus discard-pile seeding at the top of `play_game`
(lines 110-120), from a supplied shuffled deck. -/
def start_round (n : Nat) (shuffled_deck : List String) : Option GameState :=
  let dealt := deal_hands shuffled_deck (initial_players n)
  seed_discard { deck := dealt.2, discard_pile := [], players := dealt.1,
                 is_game_over := false }

/-- A candidate element of the `players` argument of `__init__`: Python is
dynamically typed, so an element either is a `Player` instance (carrying its
state) or is not. -/
structure Candidate where
  is_player_instance : Bool
  state : PlayerState
deriving DecidableEq

/-- `GolfGame.__init__` (lines 12-36): validation and construction.
`Except.error` models the raised `ValueError`/`TypeError`. -/
def golf_init (shuffle : List String → List String) (num_players : Nat)
    (players : Option (List Candidate)) : Except String GameState :=
  if ¬ (2 ≤ num_players ∧ num_players ≤ 4) then
    Except.error "The game supports 2 to 4 players."
  else
    match players with
    | some given =>
        if given.length ≠ num_players then
          Except.error "Expected a different number of players."
        else if given.any (fun c => !c.is_player_instance) then
          Except.error "All players must be instances of the Player class."
        else
          Except.ok { deck := shuffle full_deck_list, discard_pile := [],
                      players := given.map Candidate.state,
                      is_game_over := false }
    | none =>
        Except.ok { deck := shuffle full_deck_list, discard_pile := [],
                    players := initial_players num_players,
                    is_game_over := false }

/-- `GolfGame.end_game` (lines 135-157): score every hand, then
`final_scores.sort(key=lambda x: x[1])` — Python's sort is stable, modelled
by `List.mergeSort` comparing scores only. -/
def end_game (s : GameState) : List (String × Nat) :=
  let final_scores := s.players.map (fun p => (p.name, calculate_score p.hand))
  final_scores.mergeSort (fun a b => decide (a.2 ≤ b.2))

/-- One iteration of `for player in self.players` (lines 127-131), starting
at player index `i` of the `n` players present when the pass began: stop on
`self.is_game_over`, otherwise run the move and store its flag.  The move
function is abstract: any strategy's `make_move`. -/
def play_pass_from (move : Nat → GameState → GameState × Bool) (n : Nat)
    (i : Nat) (s : GameState) : GameState :=
  if h : i < n then
    if s.is_game_over then s
    else
      let r := move i s
      play_pass_from move n (i + 1) { r.1 with is_game_over := r.2 }
  else s
termination_by n - i

/-- One full pass of the inner `for` loop over all players. -/
def play_pass (move : Nat → GameState → GameState × Bool) (s : GameState) :
    GameState :=
  play_pass_from move s.players.length 0 s

/-- The `while not self.is_game_over` loop (lines 123-131), with fuel
modelling the unbounded iteration; `none` means the fuel ran out. -/
def game_loop (move : Nat → GameState → GameState × Bool) :
    Nat → GameState → Option GameState
  | 0, s => if s.is_game_over then some s else none
  | fuel + 1, s =>
      if s.is_game_over then some s
      else game_loop move fuel (play_pass move s)

/-- The tail of `play_game` (lines 122-133): loop until the flag is set,
then `end_game`. -/
def play_from (move : Nat → GameState → GameState × Bool) (fuel : Nat)
    (s : GameState) : Option (List (String × Nat)) :=
  (game_loop move fuel s).map end_game

/-- The state of a pass just before player `k` moves: `s` itself for
`k = 0`, afterwards the state left by the previous move with the returned
flag stored in `is_game_over` (line 131). -/
def pass_states (move : Nat → GameState → GameState × Bool) (s : GameState) :
    Nat → GameState
  | 0 => s
  | k + 1 =>
      let r := move k (pass_states move s k)
      { r.1 with is_game_over := r.2 }

/-! Card conservation. -/

/-- Every card in play: deck, discard pile and all hands, as a multiset. -/
def total_cards (s : GameState) : Multiset String :=
  (s.deck : Multiset String) + (s.discard_pile : Multiset String) +
    (s.players.map (fun p => (p.hand : Multiset String))).sum

/-- One player turn taken by the engine (line 131): either a `RandomPlayer`
or a `GreedyPlayer` moves, with `random.shuffle` constrained to permute. -/
inductive Step : GameState → GameState → Prop where
  | random_turn (s : GameState) (i : Fin s.players.length) (c : MoveChoice)
      (deck1 discard1 : List String) (p1 : PlayerState) (b : Bool)
      (hperm : ∀ l, (c.shuffle l).Perm l)
      (hm : random_make_move c s.deck s.discard_pile (s.players.get i) =
        some (deck1, discard1, p1, b)) :
      Step s { deck := deck1, discard_pile := discard1,
               players := s.players.set i p1, is_game_over := b }
  | greedy_turn (s : GameState) (i : Fin s.players.length)
      (shuffle : List String → List String)
      (deck1 discard1 : List String) (p1 : PlayerState) (b : Bool)
      (hperm : ∀ l, (shuffle l).Perm l)
      (hm : greedy_make_move shuffle s.deck s.discard_pile (s.players.get i) =
        some (deck1, discard1, p1, b)) :
      Step s { deck := deck1, discard_pile := discard1,
               players := s.players.set i p1, is_game_over := b }

/-- States reachable during a round: the post-deal seeded state of a 2-4
player game over a shuffled 52-card deck, closed under player turns. -/
inductive Reachable : GameState → Prop where
  | init (n : Nat) (shuffled : List String) (s : GameState)
      (hn2 : 2 ≤ n) (hn4 : n ≤ 4) (hperm : shuffled.Perm full_deck_list)
      (hs : start_round n shuffled = some s) : Reachable s
  | step (s t : GameState) (hs : Reachable s) (hst : Step s t) : Reachable t

/-- The in-round invariant: the 52 cards are conserved, every hand holds 4
cards, and there are 2 to 4 players. -/
def Inv (s : GameState) : Prop :=
  total_cards s = (full_deck_list : Multiset String) ∧
  (∀ p ∈ s.players, p.hand.length = 4) ∧
  2 ≤ s.players.length ∧ s.players.length ≤ 4

/-- The state `start_round 2 full_deck_list` produces (identity shuffle). -/
def c3_state : GameState :=
  { deck := full_deck_list.drop 9,
    discard_pile := [full_deck_list.getD 8 ""],
    players := [
      { name := "Player 1", hand := full_deck_list.take 4, face_up_indices := ∅ },
      { name := "Player 2", hand := (full_deck_list.drop 4).take 4,
        face_up_indices := ∅ }],
    is_game_over := false }

/-- A two-player mid-round state whose deck has just run out: both hands and
the discard pile partition the 52 cards. -/
def c5_state : GameState :=
  { deck := [],
    discard_pile := full_deck_list.drop 8,
    players := [
      { name := "Player 1", hand := full_deck_list.take 4, face_up_indices := ∅ },
      { name := "Player 2", hand := (full_deck_list.drop 4).take 4,
        face_up_indices := ∅ }],
    is_game_over := false }

/-! Basic facts about rank extraction and card values. -/

theorem rank_of_toList (c : String) :
    (rank_of c).toList = c.toList.takeWhile (fun ch => ch ≠ '-') := rfl

theorem takeWhile_all_eq (p : Char → Bool) :
    ∀ (l : List Char), (∀ x ∈ l, p x) → l.takeWhile p = l := by
  intro l
  induction l with
  | nil => intro _; rfl
  | cons x xs ih =>
      intro h
      have hx : p x := h x (List.mem_cons_self x xs)
      simp [List.takeWhile, hx, ih (fun y hy => h y (List.mem_cons_of_mem x hy))]

theorem takeWhile_append_stop (p : Char → Bool) (x : Char)
    (hx : ¬ p x) : ∀ (l r : List Char), (∀ y ∈ l, p y) →
    (l ++ x :: r).takeWhile p = l := by
  intro l
  induction l with
  | nil => intro r _; simp [List.takeWhile, hx]
  | cons a as ih =>
      intro r h
      have ha : p a := h a (List.mem_cons_self a as)
      simp [List.takeWhile, ha, ih r (fun y hy => h y (List.mem_cons_of_mem a hy))]

theorem rank_of_no_dash (c : String) : ∀ ch ∈ (rank_of c).toList, ch ≠ '-' := by
  intro ch hch
  rw [rank_of_toList] at hch
  have := List.mem_takeWhile_imp hch
  simpa using this

theorem string_mk_toList (s : String) : (s.toList).asString = s := by
  cases s
  rfl

theorem rank_of_eq_self (v : String) (h : ∀ ch ∈ v.toList, ch ≠ '-') :
    rank_of v = v := by
  unfold rank_of
  rw [takeWhile_all_eq _ _ (by intro x hx; simpa using h x hx), string_mk_toList]

theorem toList_append (a b : String) : (a ++ b).toList = a.toList ++ b.toList := by
  cases a
  cases b
  rfl

theorem rank_of_append_dash (v s : String) (h : ∀ ch ∈ v.toList, ch ≠ '-') :
    rank_of (v ++ "-" ++ s) = v := by
  unfold rank_of
  rw [toList_append, toList_append]
  have : ("-" : String).toList ++ s.toList = '-' :: s.toList := by
    cases s
    rfl
  rw [List.append_assoc, this,
    takeWhile_append_stop _ '-' (by simp) _ _ (by intro y hy; simpa using h y hy),
    string_mk_toList]

theorem get_card_value_append_X (v : String) (h : ∀ ch ∈ v.toList, ch ≠ '-') :
    get_card_value (v ++ "-X") = get_card_value v := by
  have h1 : v ++ "-X" = v ++ "-" ++ "X" := by
    simp [String.ext_iff, toList_append]
  unfold get_card_value
  rw [h1, rank_of_append_dash v "X" h, rank_of_eq_self v h]

theorem foldl_add_of_pointwise (f : Nat → String → Nat) (g : String → Nat) :
    ∀ (l : List String), (∀ total v, v ∈ l → f total v = total + g v) →
    ∀ acc, l.foldl f acc = acc + (l.map g).sum := by
  intro l
  induction l with
  | nil => intro _ acc; simp
  | cons x xs ih =>
      intro h acc
      simp only [List.foldl_cons, List.map_cons, List.sum_cons]
      rw [h acc x (List.mem_cons_self x xs),
        ih (fun t v hv => h t v (List.mem_cons_of_mem x hv))]
      omega

theorem score_step_eq (total : Nat) (v : String) (n : Nat) (hpos : 0 < n)
    (hx : get_card_value (v ++ "-X") = get_card_value v) :
    (if n = 2 then total
     else if n > 2 then
       (let remaining_cards := n % 2
        if remaining_cards > 0 then
          total + get_card_value (v ++ "-X") * remaining_cards
        else total)
     else total + get_card_value (v ++ "-X")) =
      total + get_card_value v * (n % 2) := by
  by_cases hn2 : n = 2
  · simp [hn2]
  · rcases Nat.lt_or_ge n 2 with h2 | h2
    · have hn1 : n = 1 := by omega
      subst hn1
      simp [hx]
    · have hgt : n > 2 := by omega
      rcases Nat.mod_two_eq_zero_or_one n with hm | hm <;>
        simp [hn2, hgt, hm, hx, Nat.not_lt_of_ge h2]

theorem calculate_score_eq (hand : List String) :
    calculate_score hand =
      ((hand.map rank_of).dedup.map
        (fun v => get_card_value v * ((hand.map rank_of).count v % 2))).sum := by
  have hstep : ∀ total v, v ∈ (hand.map rank_of).dedup →
      (fun total value =>
        let count := (hand.map rank_of).count value
        if count = 2 then total
        else if count > 2 then
          (let remaining_cards := count % 2
           if remaining_cards > 0 then
             total + get_card_value (value ++ "-X") * remaining_cards
           else total)
        else total + get_card_value (value ++ "-X")) total v =
        total + get_card_value v * ((hand.map rank_of).count v % 2) := by
    intro total v hv
    have hvcv : v ∈ hand.map rank_of := List.mem_dedup.mp hv
    have hpos : 0 < (hand.map rank_of).count v := by
      exact List.count_pos_iff.mpr hvcv
    obtain ⟨c, hc, rfl⟩ := List.mem_map.mp hvcv
    exact score_step_eq total (rank_of c) _ hpos
      (get_card_value_append_X (rank_of c) (rank_of_no_dash c))
  exact (foldl_add_of_pointwise _ _ ((hand.map rank_of).dedup) hstep 0).trans
    (Nat.zero_add _)

/-- C1: for a 4-card hand the score is the sum over distinct ranks of
`cardValue(rank) * (count mod 2)`; a rank held by exactly two cards
contributes 0; two cards of one rank plus two of another score 0; and the
hand `[7-H, 7-D, 7-C, 2-S]` scores 9. -/
theorem score_pair_cancellation (hand : List String) (h : hand.length = 4) :
    calculate_score hand =
      ((hand.map rank_of).dedup.map
        (fun v => get_card_value v * ((hand.map rank_of).count v % 2))).sum ∧
    (∀ v : String, (hand.map rank_of).count v = 2 →
      get_card_value v * ((hand.map rank_of).count v % 2) = 0) ∧
    (∀ c1 c2 c3 c4 : String, rank_of c1 = rank_of c2 → rank_of c3 = rank_of c4 →
      calculate_score [c1, c2, c3, c4] = 0) ∧
    calculate_score ["7-H", "7-D", "7-C", "2-S"] = 9 := by
  refine ⟨calculate_score_eq hand, ?_, ?_, by decide⟩
  · intro v hv
    simp [hv]
  · intro c1 c2 c3 c4 h12 h34
    rw [calculate_score_eq]
    apply List.sum_eq_zero
    intro x hx
    obtain ⟨v, hv, rfl⟩ := List.mem_map.mp hx
    suffices hcount : ([c1, c2, c3, c4].map rank_of).count v % 2 = 0 by
      rw [hcount, Nat.mul_zero]
    simp only [List.map_cons, List.map_nil, ← h12, ← h34]
    simp only [List.count_cons, List.count_nil]
    split_ifs <;> omega

theorem score_pair_cancellation_witness :
    (["7-H", "7-D", "7-C", "2-S"] : List String).length = 4 ∧
    calculate_score ["7-H", "7-D", "7-C", "2-S"] = 9 ∧
    calculate_score ["3-H", "3-D", "5-C", "5-S"] = 0 :=
  ⟨by decide,
   (score_pair_cancellation ["7-H", "7-D", "7-C", "2-S"] (by decide)).2.2.2,
   (score_pair_cancellation ["3-H", "3-D", "5-C", "5-S"] (by decide)).2.2.1
     "3-H" "3-D" "5-C" "5-S" (by decide) (by decide)⟩

/-- C2: `get_card_value` on every card string `"<RANK>-<SUIT>"` gives the
face value for numeric ranks 2-10, `10` for J, Q and A, and `0` for K; in
particular `K-H ↦ 0`, `A-S ↦ 10` and `9-D ↦ 9`. -/
theorem card_value_table :
    (∀ n ∈ List.range' 2 9, ∀ s ∈ suits, get_card_value (toString n ++ "-" ++ s) = n) ∧
    (∀ r ∈ (["J", "Q", "A"] : List String), ∀ s ∈ suits,
      get_card_value (r ++ "-" ++ s) = 10) ∧
    (∀ s ∈ suits, get_card_value ("K" ++ "-" ++ s) = 0) ∧
    get_card_value "K-H" = 0 ∧ get_card_value "A-S" = 10 ∧ get_card_value "9-D" = 9 :=
  ⟨by decide, by decide, by decide, by decide, by decide, by decide⟩

theorem card_value_table_witness :
    (9 ∈ List.range' 2 9 ∧ "D" ∈ suits) ∧
    get_card_value (toString 9 ++ "-" ++ "D") = 9 :=
  ⟨⟨by decide, by decide⟩, card_value_table.1 9 (by decide) "D" (by decide)⟩

theorem multiset_set_exchange (l : List String) :
    ∀ (i : Nat) (a : String), i < l.length →
    ((l.set i a : List String) : Multiset String) + {l.getD i ""} =
      (l : Multiset String) + {a} := by
  induction l with
  | nil => intro i a h; simp at h
  | cons x xs ih =>
      intro i a h
      cases i with
      | zero =>
          simp only [List.set, List.getD_cons_zero]
          simp only [← Multiset.cons_coe, ← Multiset.singleton_add]
          ac_rfl
      | succ j =>
          simp only [List.set, List.getD_cons_succ]
          have hj : j < xs.length := by simpa using h
          rw [← Multiset.cons_coe, ← Multiset.cons_coe, Multiset.cons_add,
            Multiset.cons_add, ih j a hj]

theorem cons_set_exchange (hand rest : List String) (idx : Nat) (a : String)
    (h : idx < hand.length) :
    ((hand.getD idx "" :: rest : List String) : Multiset String) +
      ((hand.set idx a : List String) : Multiset String) =
      ((a :: rest : List String) : Multiset String) + (hand : Multiset String) := by
  have key := multiset_set_exchange hand idx a h
  rw [← Multiset.cons_coe, ← Multiset.cons_coe, ← Multiset.singleton_add,
    ← Multiset.singleton_add]
  calc ({hand.getD idx ""} + (rest : Multiset String)) + ↑(hand.set idx a)
      = (rest : Multiset String) + (↑(hand.set idx a) + {hand.getD idx ""}) := by
        ac_rfl
    _ = (rest : Multiset String) + (↑hand + {a}) := by rw [key]
    _ = ({a} + (rest : Multiset String)) + ↑hand := by ac_rfl

theorem pick_from_mem (pick : Nat) (l : List Nat) (h : l ≠ []) :
    pick_from pick l ∈ l := by
  unfold pick_from
  have hlen : 0 < l.length := List.length_pos.mpr h
  have hlt : pick % l.length < l.length := Nat.mod_lt _ hlen
  rw [List.getD_eq_getElem l 0 hlt]
  exact List.getElem_mem hlt

theorem face_down_mem_lt (fu : Finset Nat) (i : Nat)
    (h : i ∈ (List.range 4).filter (fun j => j ∉ fu)) : i < 4 := by
  have := List.mem_filter.mp h
  exact List.mem_range.mp this.1

theorem random_make_move_cards (c : MoveChoice) (deck discard : List String)
    (p : PlayerState) (deck1 discard1 : List String) (p1 : PlayerState)
    (b : Bool) (hperm : ∀ l, (c.shuffle l).Perm l) (hlen : p.hand.length = 4)
    (hm : random_make_move c deck discard p = some (deck1, discard1, p1, b)) :
    (deck1 : Multiset String) + (discard1 : Multiset String) +
        (p1.hand : Multiset String) =
      (deck : Multiset String) + (discard : Multiset String) +
        (p.hand : Multiset String) ∧
    p1.hand.length = 4 ∧ p1.name = p.name := by
  cases discard with
  | nil => simp [random_make_move] at hm
  | cons top rest =>
  cases hact : c.action with
  | turnover =>
      simp only [random_make_move, hact, draw_or_take, Option.some.injEq,
        Prod.mk.injEq] at hm
      obtain ⟨h1, h2, h3, h4⟩ := hm
      subst h1; subst h2; subst h3
      exact ⟨rfl, hlen, rfl⟩
  | swap_discard =>
      simp only [random_make_move, hact, draw_or_take] at hm
      by_cases hsw : c.swap
      · by_cases hfd : ((List.range 4).filter
            (fun i => i ∉ p.face_up_indices)).isEmpty
        · simp only [hsw, if_true, random_swap_card, hfd, Option.some.injEq,
            Prod.mk.injEq] at hm
          obtain ⟨h1, h2, h3, h4⟩ := hm
          subst h1; subst h2; subst h3
          exact ⟨rfl, hlen, rfl⟩
        · simp only [hsw, if_true, random_swap_card, hfd, Bool.false_eq_true,
            if_false, Option.some.injEq, Prod.mk.injEq] at hm
          obtain ⟨h1, h2, h3, h4⟩ := hm
          subst h1; subst h2; subst h3
          have hne : ((List.range 4).filter
              (fun i => i ∉ p.face_up_indices)) ≠ [] := by
            intro hnil; rw [hnil] at hfd; exact hfd rfl
          have hidx := pick_from_mem c.pick _ hne
          have hlt : pick_from c.pick ((List.range 4).filter
              (fun i => i ∉ p.face_up_indices)) < p.hand.length := by
            have := face_down_mem_lt p.face_up_indices _ hidx
            omega
          refine ⟨?_, by simpa using hlen, rfl⟩
          show (deck : Multiset String) + _ + _ = _
          rw [add_assoc, add_assoc,
            cons_set_exchange p.hand rest _ top hlt]
      · simp only [hsw, Bool.false_eq_true, if_false, Option.some.injEq,
          Prod.mk.injEq] at hm
        obtain ⟨h1, h2, h3, h4⟩ := hm
        subst h1; subst h2; subst h3
        exact ⟨rfl, hlen, rfl⟩
  | draw =>
      cases deck with
      | nil =>
          cases hsr : c.shuffle rest with
          | nil =>
              simp [random_make_move, hact, draw_or_take, reshuffle, hsr] at hm
          | cons e es =>
              have hre : ({e} : Multiset String) + (es : Multiset String) =
                  (rest : Multiset String) := by
                have hcoe : ((c.shuffle rest : List String) : Multiset String) =
                    (rest : Multiset String) :=
                  Multiset.coe_eq_coe.mpr (hperm rest)
                rw [hsr, ← Multiset.cons_coe, ← Multiset.singleton_add] at hcoe
                exact hcoe
              simp only [random_make_move, hact, draw_or_take, reshuffle,
                List.isEmpty_nil, if_true, hsr] at hm
              by_cases hsw : c.swap
              · by_cases hfd : ((List.range 4).filter
                    (fun i => i ∉ p.face_up_indices)).isEmpty
                · simp only [hsw, if_true, random_swap_card, hfd,
                    Option.some.injEq, Prod.mk.injEq] at hm
                  obtain ⟨h1, h2, h3, h4⟩ := hm
                  subst h1; subst h2; subst h3
                  refine ⟨?_, hlen, rfl⟩
                  simp only [← Multiset.cons_coe, ← Multiset.singleton_add,
                    Multiset.coe_nil, zero_add]
                  calc (es : Multiset String) + ({e} + ({top} + 0)) +
                        (p.hand : Multiset String)
                      = ({top} + 0) + (({e} + ↑es) + ↑p.hand) := by ac_rfl
                    _ = ({top} + 0) + ((rest : Multiset String) + ↑p.hand) := by
                        rw [hre]
                    _ = ({top} + ↑rest) + ↑p.hand := by ac_rfl
                · simp only [hsw, if_true, random_swap_card, hfd,
                    Bool.false_eq_true, if_false, Option.some.injEq,
                    Prod.mk.injEq] at hm
                  obtain ⟨h1, h2, h3, h4⟩ := hm
                  subst h1; subst h2; subst h3
                  have hne : ((List.range 4).filter
                      (fun i => i ∉ p.face_up_indices)) ≠ [] := by
                    intro hnil; rw [hnil] at hfd; exact hfd rfl
                  have hidx := pick_from_mem c.pick _ hne
                  have hlt : pick_from c.pick ((List.range 4).filter
                      (fun i => i ∉ p.face_up_indices)) < p.hand.length := by
                    have := face_down_mem_lt p.face_up_indices _ hidx
                    omega
                  refine ⟨?_, by simpa using hlen, rfl⟩
                  have key := multiset_set_exchange p.hand _ e hlt
                  simp only [← Multiset.cons_coe, ← Multiset.singleton_add,
                    Multiset.coe_nil, zero_add]
                  calc (es : Multiset String) +
                        ({p.hand.getD (pick_from c.pick ((List.range 4).filter
                          (fun i => i ∉ p.face_up_indices))) ""} + ({top} + 0)) +
                        ((p.hand.set (pick_from c.pick ((List.range 4).filter
                          (fun i => i ∉ p.face_up_indices))) e : List String) :
                          Multiset String)
                      = ({top} + 0) + (↑es +
                          (((p.hand.set (pick_from c.pick ((List.range 4).filter
                            (fun i => i ∉ p.face_up_indices))) e : List String) :
                            Multiset String) +
                           {p.hand.getD (pick_from c.pick ((List.range 4).filter
                            (fun i => i ∉ p.face_up_indices))) ""})) := by ac_rfl
                    _ = ({top} + 0) + (↑es + (↑p.hand + {e})) := by rw [key]
                    _ = ({top} + 0) + (({e} + ↑es) + ↑p.hand) := by ac_rfl
                    _ = ({top} + 0) + ((rest : Multiset String) + ↑p.hand) := by
                        rw [hre]
                    _ = ({top} + ↑rest) + ↑p.hand := by ac_rfl
              · simp only [hsw, Bool.false_eq_true, if_false, Option.some.injEq,
                  Prod.mk.injEq] at hm
                obtain ⟨h1, h2, h3, h4⟩ := hm
                subst h1; subst h2; subst h3
                refine ⟨?_, hlen, rfl⟩
                simp only [← Multiset.cons_coe, ← Multiset.singleton_add,
                  Multiset.coe_nil, zero_add]
                calc (es : Multiset String) + ({e} + ({top} + 0)) +
                      (p.hand : Multiset String)
                    = ({top} + 0) + (({e} + ↑es) + ↑p.hand) := by ac_rfl
                  _ = ({top} + 0) + ((rest : Multiset String) + ↑p.hand) := by
                      rw [hre]
                  _ = ({top} + ↑rest) + ↑p.hand := by ac_rfl
      | cons d ds =>
          simp only [random_make_move, hact, draw_or_take, List.isEmpty_cons,
            Bool.false_eq_true, if_false] at hm
          by_cases hsw : c.swap
          · by_cases hfd : ((List.range 4).filter
                (fun i => i ∉ p.face_up_indices)).isEmpty
            · simp only [hsw, if_true, random_swap_card, hfd,
                Option.some.injEq, Prod.mk.injEq] at hm
              obtain ⟨h1, h2, h3, h4⟩ := hm
              subst h1; subst h2; subst h3
              refine ⟨?_, hlen, rfl⟩
              simp only [← Multiset.cons_coe, ← Multiset.singleton_add]
              ac_rfl
            · simp only [hsw, if_true, random_swap_card, hfd,
                Bool.false_eq_true, if_false, Option.some.injEq,
                Prod.mk.injEq] at hm
              obtain ⟨h1, h2, h3, h4⟩ := hm
              subst h1; subst h2; subst h3
              have hne : ((List.range 4).filter
                  (fun i => i ∉ p.face_up_indices)) ≠ [] := by
                intro hnil; rw [hnil] at hfd; exact hfd rfl
              have hidx := pick_from_mem c.pick _ hne
              have hlt : pick_from c.pick ((List.range 4).filter
                  (fun i => i ∉ p.face_up_indices)) < p.hand.length := by
                have := face_down_mem_lt p.face_up_indices _ hidx
                omega
              refine ⟨?_, by simpa using hlen, rfl⟩
              have key := multiset_set_exchange p.hand _ d hlt
              simp only [← Multiset.cons_coe, ← Multiset.singleton_add]
              calc (ds : Multiset String) +
                    ({p.hand.getD (pick_from c.pick ((List.range 4).filter
                      (fun i => i ∉ p.face_up_indices))) ""} +
                     ({top} + (rest : Multiset String))) +
                    ((p.hand.set (pick_from c.pick ((List.range 4).filter
                      (fun i => i ∉ p.face_up_indices))) d : List String) :
                      Multiset String)
                  = (↑ds + ({top} + ↑rest)) +
                      (((p.hand.set (pick_from c.pick ((List.range 4).filter
                        (fun i => i ∉ p.face_up_indices))) d : List String) :
                        Multiset String) +
                       {p.hand.getD (pick_from c.pick ((List.range 4).filter
                        (fun i => i ∉ p.face_up_indices))) ""}) := by ac_rfl
                _ = (↑ds + ({top} + ↑rest)) + (↑p.hand + {d}) := by rw [key]
                _ = ({d} + ↑ds) + ({top} + ↑rest) + ↑p.hand := by ac_rfl
          · simp only [hsw, Bool.false_eq_true, if_false, Option.some.injEq,
              Prod.mk.injEq] at hm
            obtain ⟨h1, h2, h3, h4⟩ := hm
            subst h1; subst h2; subst h3
            refine ⟨?_, hlen, rfl⟩
            simp only [← Multiset.cons_coe, ← Multiset.singleton_add]
            ac_rfl

theorem foldl_pick_snd {A : Type} (f : A × Nat → Nat → A × Nat)
    (hf : ∀ acc idx, (f acc idx).2 = acc.2 ∨ (f acc idx).2 = idx) :
    ∀ (l : List Nat) (acc : A × Nat),
      (l.foldl f acc).2 = acc.2 ∨ (l.foldl f acc).2 ∈ l := by
  intro l
  induction l with
  | nil => intro acc; left; rfl
  | cons x xs ih =>
      intro acc
      rw [List.foldl_cons]
      rcases ih (f acc x) with hc | hc
      · rcases hf acc x with hx | hx
        · left; rw [hc, hx]
        · right; rw [hc, hx]; exact List.mem_cons_self x xs
      · right; exact List.mem_cons_of_mem x hc

theorem greedy_max_step_cases (hand : List String) (acc : Int × Nat)
    (idx : Nat) :
    (greedy_max_step hand acc idx).2 = acc.2 ∨
      (greedy_max_step hand acc idx).2 = idx := by
  unfold greedy_max_step
  by_cases hc : ((get_card_value (hand.getD idx "") : Int) > acc.1)
  · right; rw [if_pos hc]
  · left; rw [if_neg hc]

theorem greedy_max_step_first (hand : List String) (idx : Nat) :
    greedy_max_step hand (-1, 0) idx =
      ((get_card_value (hand.getD idx "") : Int), idx) := by
  unfold greedy_max_step
  rw [if_pos]
  show ((-1, 0) : Int × Nat).1 < (get_card_value (hand.getD idx "") : Int)
  have : (0 : Int) ≤ (get_card_value (hand.getD idx "") : Int) := Int.ofNat_nonneg _
  omega

theorem greedy_swap_target_mem (hand : List String) (face_down : List Nat)
    (h : face_down ≠ []) : greedy_swap_target hand face_down ∈ face_down := by
  obtain ⟨j, rest, rfl⟩ := List.exists_cons_of_ne_nil h
  unfold greedy_swap_target
  rw [List.foldl_cons, greedy_max_step_first]
  rcases foldl_pick_snd (greedy_max_step hand) (greedy_max_step_cases hand)
      rest ((get_card_value (hand.getD j "") : Int), j) with hc | hc
  · rw [hc]; exact List.mem_cons_self j rest
  · exact List.mem_cons_of_mem j hc

theorem greedy_make_move_cards (shuffle : List String → List String)
    (deck discard : List String) (p : PlayerState) (deck1 discard1 : List String)
    (p1 : PlayerState) (b : Bool) (hperm : ∀ l, (shuffle l).Perm l)
    (hlen : p.hand.length = 4)
    (hm : greedy_make_move shuffle deck discard p =
      some (deck1, discard1, p1, b)) :
    (deck1 : Multiset String) + (discard1 : Multiset String) +
        (p1.hand : Multiset String) =
      (deck : Multiset String) + (discard : Multiset String) +
        (p.hand : Multiset String) ∧
    p1.hand.length = 4 ∧ p1.name = p.name := by
  cases discard with
  | nil => simp [greedy_make_move] at hm
  | cons top rest =>
  by_cases hv : get_card_value top < 6
  · -- takes the discard top, and always swaps it in (its value is < 6)
    simp only [greedy_make_move, greedy_choose_action, hv, if_true,
      draw_or_take, greedy_choose_swap_or_discard, decide_True] at hm
    by_cases hfd : ((List.range 4).filter
        (fun i => i ∉ p.face_up_indices)).isEmpty
    · simp only [greedy_swap_card, hfd, if_true, Option.some.injEq,
        Prod.mk.injEq] at hm
      obtain ⟨h1, h2, h3, h4⟩ := hm
      subst h1; subst h2; subst h3
      exact ⟨rfl, hlen, rfl⟩
    · simp only [greedy_swap_card, hfd, Bool.false_eq_true, if_false,
        Option.some.injEq, Prod.mk.injEq] at hm
      obtain ⟨h1, h2, h3, h4⟩ := hm
      subst h1; subst h2; subst h3
      have hne : ((List.range 4).filter
          (fun i => i ∉ p.face_up_indices)) ≠ [] := by
        intro hnil; rw [hnil] at hfd; exact hfd rfl
      have hidx := greedy_swap_target_mem p.hand _ hne
      have hlt : greedy_swap_target p.hand ((List.range 4).filter
          (fun i => i ∉ p.face_up_indices)) < p.hand.length := by
        have := face_down_mem_lt p.face_up_indices _ hidx
        omega
      refine ⟨?_, by simpa using hlen, rfl⟩
      show (deck : Multiset String) + _ + _ = _
      rw [add_assoc, add_assoc, cons_set_exchange p.hand rest _ top hlt]
  · -- draws from the deck
    cases deck with
    | nil =>
        cases hsr : shuffle rest with
        | nil =>
            simp [greedy_make_move, greedy_choose_action, hv, draw_or_take,
              reshuffle, hsr] at hm
        | cons e es =>
            have hre : ({e} : Multiset String) + (es : Multiset String) =
                (rest : Multiset String) := by
              have hcoe : ((shuffle rest : List String) : Multiset String) =
                  (rest : Multiset String) := Multiset.coe_eq_coe.mpr (hperm rest)
              rw [hsr, ← Multiset.cons_coe, ← Multiset.singleton_add] at hcoe
              exact hcoe
            simp only [greedy_make_move, greedy_choose_action, hv,
              Bool.false_eq_true, if_false, draw_or_take, reshuffle,
              List.isEmpty_nil, if_true, hsr] at hm
            by_cases hsw : get_card_value e < 6
            · simp only [greedy_choose_swap_or_discard, hsw, decide_True,
                if_true] at hm
              by_cases hfd : ((List.range 4).filter
                  (fun i => i ∉ p.face_up_indices)).isEmpty
              · simp only [greedy_swap_card, hfd, if_true, Option.some.injEq,
                  Prod.mk.injEq] at hm
                obtain ⟨h1, h2, h3, h4⟩ := hm
                subst h1; subst h2; subst h3
                refine ⟨?_, hlen, rfl⟩
                simp only [← Multiset.cons_coe, ← Multiset.singleton_add,
                  Multiset.coe_nil, zero_add]
                calc (es : Multiset String) + ({e} + ({top} + 0)) +
                      (p.hand : Multiset String)
                    = ({top} + 0) + (({e} + ↑es) + ↑p.hand) := by ac_rfl
                  _ = ({top} + 0) + ((rest : Multiset String) + ↑p.hand) := by
                      rw [hre]
                  _ = ({top} + ↑rest) + ↑p.hand := by ac_rfl
              · simp only [greedy_swap_card, hfd, Bool.false_eq_true, if_false,
                  Option.some.injEq, Prod.mk.injEq] at hm
                obtain ⟨h1, h2, h3, h4⟩ := hm
                subst h1; subst h2; subst h3
                have hne : ((List.range 4).filter
                    (fun i => i ∉ p.face_up_indices)) ≠ [] := by
                  intro hnil; rw [hnil] at hfd; exact hfd rfl
                have hidx := greedy_swap_target_mem p.hand _ hne
                have hlt : greedy_swap_target p.hand ((List.range 4).filter
                    (fun i => i ∉ p.face_up_indices)) < p.hand.length := by
                  have := face_down_mem_lt p.face_up_indices _ hidx
                  omega
                refine ⟨?_, by simpa using hlen, rfl⟩
                have key := multiset_set_exchange p.hand _ e hlt
                simp only [← Multiset.cons_coe, ← Multiset.singleton_add,
                  Multiset.coe_nil, zero_add]
                calc (es : Multiset String) +
                      ({p.hand.getD (greedy_swap_target p.hand
                        ((List.range 4).filter
                          (fun i => i ∉ p.face_up_indices))) ""} + ({top} + 0)) +
                      ((p.hand.set (greedy_swap_target p.hand
                        ((List.range 4).filter
                          (fun i => i ∉ p.face_up_indices))) e : List String) :
                        Multiset String)
                    = ({top} + 0) + (↑es +
                        (((p.hand.set (greedy_swap_target p.hand
                          ((List.range 4).filter
                            (fun i => i ∉ p.face_up_indices))) e : List String) :
                          Multiset String) +
                         {p.hand.getD (greedy_swap_target p.hand
                          ((List.range 4).filter
                            (fun i => i ∉ p.face_up_indices))) ""})) := by ac_rfl
                  _ = ({top} + 0) + (↑es + (↑p.hand + {e})) := by rw [key]
                  _ = ({top} + 0) + (({e} + ↑es) + ↑p.hand) := by ac_rfl
                  _ = ({top} + 0) + ((rest : Multiset String) + ↑p.hand) := by
                      rw [hre]
                  _ = ({top} + ↑rest) + ↑p.hand := by ac_rfl
            · simp only [greedy_choose_swap_or_discard, hsw, decide_False,
                Bool.false_eq_true, if_false, Option.some.injEq,
                Prod.mk.injEq] at hm
              obtain ⟨h1, h2, h3, h4⟩ := hm
              subst h1; subst h2; subst h3
              refine ⟨?_, hlen, rfl⟩
              simp only [← Multiset.cons_coe, ← Multiset.singleton_add,
                Multiset.coe_nil, zero_add]
              calc (es : Multiset String) + ({e} + ({top} + 0)) +
                    (p.hand : Multiset String)
                  = ({top} + 0) + (({e} + ↑es) + ↑p.hand) := by ac_rfl
                _ = ({top} + 0) + ((rest : Multiset String) + ↑p.hand) := by
                    rw [hre]
                _ = ({top} + ↑rest) + ↑p.hand := by ac_rfl
    | cons d ds =>
        simp only [greedy_make_move, greedy_choose_action, hv,
          Bool.false_eq_true, if_false, draw_or_take, List.isEmpty_cons] at hm
        by_cases hsw : get_card_value d < 6
        · simp only [greedy_choose_swap_or_discard, hsw, decide_True,
            if_true] at hm
          by_cases hfd : ((List.range 4).filter
              (fun i => i ∉ p.face_up_indices)).isEmpty
          · simp only [greedy_swap_card, hfd, if_true, Option.some.injEq,
              Prod.mk.injEq] at hm
            obtain ⟨h1, h2, h3, h4⟩ := hm
            subst h1; subst h2; subst h3
            refine ⟨?_, hlen, rfl⟩
            simp only [← Multiset.cons_coe, ← Multiset.singleton_add]
            ac_rfl
          · simp only [greedy_swap_card, hfd, Bool.false_eq_true, if_false,
              Option.some.injEq, Prod.mk.injEq] at hm
            obtain ⟨h1, h2, h3, h4⟩ := hm
            subst h1; subst h2; subst h3
            have hne : ((List.range 4).filter
                (fun i => i ∉ p.face_up_indices)) ≠ [] := by
              intro hnil; rw [hnil] at hfd; exact hfd rfl
            have hidx := greedy_swap_target_mem p.hand _ hne
            have hlt : greedy_swap_target p.hand ((List.range 4).filter
                (fun i => i ∉ p.face_up_indices)) < p.hand.length := by
              have := face_down_mem_lt p.face_up_indices _ hidx
              omega
            refine ⟨?_, by simpa using hlen, rfl⟩
            have key := multiset_set_exchange p.hand _ d hlt
            simp only [← Multiset.cons_coe, ← Multiset.singleton_add]
            calc (ds : Multiset String) +
                  ({p.hand.getD (greedy_swap_target p.hand
                    ((List.range 4).filter
                      (fun i => i ∉ p.face_up_indices))) ""} +
                   ({top} + (rest : Multiset String))) +
                  ((p.hand.set (greedy_swap_target p.hand
                    ((List.range 4).filter
                      (fun i => i ∉ p.face_up_indices))) d : List String) :
                    Multiset String)
                = (↑ds + ({top} + ↑rest)) +
                    (((p.hand.set (greedy_swap_target p.hand
                      ((List.range 4).filter
                        (fun i => i ∉ p.face_up_indices))) d : List String) :
                      Multiset String) +
                     {p.hand.getD (greedy_swap_target p.hand
                      ((List.range 4).filter
                        (fun i => i ∉ p.face_up_indices))) ""}) := by ac_rfl
              _ = (↑ds + ({top} + ↑rest)) + (↑p.hand + {d}) := by rw [key]
              _ = ({d} + ↑ds) + ({top} + ↑rest) + ↑p.hand := by ac_rfl
        · simp only [greedy_choose_swap_or_discard, hsw, decide_False,
            Bool.false_eq_true, if_false, Option.some.injEq,
            Prod.mk.injEq] at hm
          obtain ⟨h1, h2, h3, h4⟩ := hm
          subst h1; subst h2; subst h3
          refine ⟨?_, hlen, rfl⟩
          simp only [← Multiset.cons_coe, ← Multiset.singleton_add]
          ac_rfl

theorem hands_sum_set (players : List PlayerState) :
    ∀ (i : Nat) (p1 : PlayerState) (h : i < players.length),
    (((players.set i p1).map (fun p => (p.hand : Multiset String))).sum) +
        ((players.get ⟨i, h⟩).hand : Multiset String) =
      ((players.map (fun p => (p.hand : Multiset String))).sum) +
        (p1.hand : Multiset String) := by
  induction players with
  | nil => intro i p1 h; simp at h
  | cons q qs ih =>
      intro i p1 h
      cases i with
      | zero =>
          simp only [List.set, List.map_cons, List.sum_cons, List.get]
          ac_rfl
      | succ j =>
          simp only [List.set, List.map_cons, List.sum_cons, List.get]
          have hj : j < qs.length := by simpa using h
          rw [add_assoc, add_assoc, ih j p1 hj]

theorem mem_set_cases (players : List PlayerState) :
    ∀ (i : Nat) (p1 q : PlayerState), q ∈ players.set i p1 →
      q ∈ players ∨ q = p1 := by
  induction players with
  | nil => intro i p1 q hq; simp [List.set] at hq
  | cons x xs ih =>
      intro i p1 q hq
      cases i with
      | zero =>
          rcases List.mem_cons.mp hq with h | h
          · right; exact h
          · left; exact List.mem_cons_of_mem x h
      | succ j =>
          rcases List.mem_cons.mp hq with h | h
          · left; rw [h]; exact List.mem_cons_self x xs
          · rcases ih j p1 q h with h2 | h2
            · left; exact List.mem_cons_of_mem x h2
            · right; exact h2

theorem deal_hands_spec : ∀ (players : List PlayerState) (deck : List String),
    4 * players.length ≤ deck.length →
    ((deal_hands deck players).2 : Multiset String) +
        (((deal_hands deck players).1.map
          (fun p => (p.hand : Multiset String))).sum) =
      (deck : Multiset String) ∧
    (∀ p ∈ (deal_hands deck players).1, p.hand.length = 4) ∧
    (deal_hands deck players).1.length = players.length ∧
    (deal_hands deck players).2.length = deck.length - 4 * players.length := by
  intro players
  induction players with
  | nil =>
      intro deck hle
      refine ⟨by simp [deal_hands], by simp [deal_hands], by simp [deal_hands],
        by simp [deal_hands]⟩
  | cons p ps ih =>
      intro deck hle
      have h4 : 4 ≤ deck.length := by
        simp only [List.length_cons] at hle
        omega
      have hdrop : (deck.drop 4).length = deck.length - 4 := List.length_drop 4 deck
      have hle2 : 4 * ps.length ≤ (deck.drop 4).length := by
        simp only [List.length_cons] at hle
        omega
      obtain ⟨ihsum, ihlen4, ihlen, ihdeck⟩ := ih (deck.drop 4) hle2
      rcases hd : deal_hands (deck.drop 4) ps with ⟨rest, deck2⟩
      rw [hd] at ihsum ihlen4 ihlen ihdeck
      dsimp only at ihsum ihlen4 ihlen ihdeck
      have hunfold : deal_hands deck (p :: ps) =
          ({ p with hand := deck.take 4, face_up_indices := ∅ } :: rest, deck2) := by
        simp only [deal_hands, hd]
      rw [hunfold]
      refine ⟨?_, ?_, ?_, ?_⟩
      · dsimp only
        simp only [List.map_cons, List.sum_cons]
        calc (deck2 : Multiset String) +
              (((deck.take 4 : List String) : Multiset String) +
               (rest.map (fun p => (p.hand : Multiset String))).sum)
            = ((deck.take 4 : List String) : Multiset String) +
                ((deck2 : Multiset String) +
                 (rest.map (fun p => (p.hand : Multiset String))).sum) := by ac_rfl
          _ = ((deck.take 4 : List String) : Multiset String) +
                ((deck.drop 4 : List String) : Multiset String) := by rw [ihsum]
          _ = (deck : Multiset String) := by
                rw [Multiset.coe_add, List.take_append_drop]
      · intro q hq
        dsimp only at hq
        rcases List.mem_cons.mp hq with h | h
        · rw [h]
          show (deck.take 4).length = 4
          rw [List.length_take]
          omega
        · exact ihlen4 q h
      · dsimp only
        simp [ihlen]
      · dsimp only
        simp only [List.length_cons]
        omega

theorem initial_players_length (n : Nat) : (initial_players n).length = n := by
  simp [initial_players]

theorem start_round_inv (n : Nat) (shuffled : List String) (s : GameState)
    (hn2 : 2 ≤ n) (hn4 : n ≤ 4) (hperm : shuffled.Perm full_deck_list)
    (hs : start_round n shuffled = some s) : Inv s := by
  have h52 : full_deck_list.length = 52 := by decide
  have hlen : shuffled.length = 52 := hperm.length_eq.trans h52
  have hle : 4 * (initial_players n).length ≤ shuffled.length := by
    rw [initial_players_length, hlen]
    omega
  obtain ⟨hsum, hlen4, hplen, hdlen⟩ := deal_hands_spec (initial_players n) shuffled hle
  rcases hd : deal_hands shuffled (initial_players n) with ⟨ps1, deck1⟩
  rw [hd] at hsum hlen4 hplen hdlen
  dsimp only at hsum hlen4 hplen hdlen
  rw [initial_players_length] at hplen hdlen
  have hpos : 0 < deck1.length := by
    rw [hdlen, hlen]
    omega
  cases hdeck1 : deck1 with
  | nil => rw [hdeck1] at hpos; simp at hpos
  | cons c restd =>
      rw [start_round, hd] at hs
      dsimp only [seed_discard] at hs
      rw [hdeck1] at hs
      simp only [Option.some.injEq] at hs
      subst hs
      refine ⟨?_, hlen4, by dsimp only; omega, by dsimp only; omega⟩
      show ((restd : Multiset String) + (([c] : List String) : Multiset String) +
        (ps1.map (fun p => (p.hand : Multiset String))).sum) = _
      have : ((restd : Multiset String) + (([c] : List String) : Multiset String)) =
          ((c :: restd : List String) : Multiset String) := by
        simp only [← Multiset.cons_coe, ← Multiset.singleton_add,
          Multiset.coe_nil, add_zero]
        ac_rfl
      rw [this, ← hdeck1, hsum]
      exact Multiset.coe_eq_coe.mpr hperm

theorem step_inv (s t : GameState) (h : Inv s) (hst : Step s t) : Inv t := by
  obtain ⟨htot, hh4, hp2, hp4⟩ := h
  have main : ∀ (i : Fin s.players.length) (deck1 discard1 : List String)
      (p1 : PlayerState),
      ((deck1 : Multiset String) + (discard1 : Multiset String) +
          (p1.hand : Multiset String) =
        (s.deck : Multiset String) + (s.discard_pile : Multiset String) +
          ((s.players.get i).hand : Multiset String)) →
      p1.hand.length = 4 →
      ∀ b : Bool,
      Inv (GameState.mk deck1 discard1 (s.players.set i p1) b) := by
    intro i deck1 discard1 p1 hcons hlen1 b
    refine ⟨?_, ?_, ?_, ?_⟩
    · show (deck1 : Multiset String) + (discard1 : Multiset String) +
        ((s.players.set i p1).map (fun p => (p.hand : Multiset String))).sum = _
      have hcancel := hands_sum_set s.players i p1 i.isLt
      have : ((deck1 : Multiset String) + (discard1 : Multiset String) +
          ((s.players.set i p1).map (fun p => (p.hand : Multiset String))).sum) +
          ((s.players.get i).hand : Multiset String) =
          (total_cards s) + ((s.players.get i).hand : Multiset String) := by
        calc ((deck1 : Multiset String) + ↑discard1 +
              ((s.players.set i p1).map (fun p => (p.hand : Multiset String))).sum) +
              ((s.players.get i).hand : Multiset String)
            = (↑deck1 + ↑discard1) +
                (((s.players.set i p1).map
                  (fun p => (p.hand : Multiset String))).sum +
                 ((s.players.get i).hand : Multiset String)) := by ac_rfl
          _ = (↑deck1 + ↑discard1) +
                ((s.players.map (fun p => (p.hand : Multiset String))).sum +
                 (p1.hand : Multiset String)) := by rw [hcancel]
          _ = (↑deck1 + ↑discard1 + (p1.hand : Multiset String)) +
                (s.players.map (fun p => (p.hand : Multiset String))).sum := by
              ac_rfl
          _ = (↑s.deck + ↑s.discard_pile +
                ((s.players.get i).hand : Multiset String)) +
                (s.players.map (fun p => (p.hand : Multiset String))).sum := by
              rw [hcons]
          _ = (total_cards s) + ((s.players.get i).hand : Multiset String) := by
              show _ = (↑s.deck + ↑s.discard_pile +
                (s.players.map (fun p => (p.hand : Multiset String))).sum) + _
              ac_rfl
      have := add_right_cancel this
      rw [this, htot]
    · intro q hq
      rcases mem_set_cases s.players i p1 q hq with h | h
      · exact hh4 q h
      · rw [h]; exact hlen1
    · show 2 ≤ (s.players.set i p1).length
      rw [List.length_set]
      exact hp2
    · show (s.players.set i p1).length ≤ 4
      rw [List.length_set]
      exact hp4
  cases hst with
  | random_turn i c deck1 discard1 p1 b hperm hm =>
      have hlen : (s.players.get i).hand.length = 4 := hh4 _ (List.get_mem s.players i.1 i.2)
      obtain ⟨hcons, hlen1, hname⟩ :=
        random_make_move_cards c s.deck s.discard_pile (s.players.get i)
          deck1 discard1 p1 b hperm hlen hm
      exact main i deck1 discard1 p1 hcons hlen1 b
  | greedy_turn i shuffle deck1 discard1 p1 b hperm hm =>
      have hlen : (s.players.get i).hand.length = 4 := hh4 _ (List.get_mem s.players i.1 i.2)
      obtain ⟨hcons, hlen1, hname⟩ :=
        greedy_make_move_cards shuffle s.deck s.discard_pile (s.players.get i)
          deck1 discard1 p1 b hperm hlen hm
      exact main i deck1 discard1 p1 hcons hlen1 b

theorem reachable_inv (s : GameState) (h : Reachable s) : Inv s := by
  induction h with
  | init n shuffled s hn2 hn4 hperm hs => exact start_round_inv n shuffled s hn2 hn4 hperm hs
  | step s t hs hst ih => exact step_inv s t ih hst

/-- C3: at every observation point of a round the deck, discard pile and
hands together hold exactly the 52 distinct cards. -/
theorem round_card_conservation (s : GameState) (h : Reachable s) :
    total_cards s = (full_deck_list : Multiset String) ∧
    (total_cards s).Nodup := by
  have hinv := reachable_inv s h
  refine ⟨hinv.1, ?_⟩
  rw [hinv.1, Multiset.coe_nodup]
  decide

theorem round_card_conservation_witness :
    Reachable c3_state ∧
    (total_cards c3_state = (full_deck_list : Multiset String) ∧
      (total_cards c3_state).Nodup) := by
  have hr : Reachable c3_state :=
    Reachable.init 2 full_deck_list c3_state (by decide) (by decide)
      (List.Perm.refl _) (by decide)
  exact ⟨hr, round_card_conservation c3_state hr⟩

/-- C4: after the reshuffle the discard pile is exactly the old top card, and
the new deck is the old discard pile minus that top card, as multisets. -/
theorem reshuffle_spec (shuffle : List String → List String)
    (hperm : ∀ l, (shuffle l).Perm l) (top : String) (rest : List String) :
    (reshuffle shuffle top rest).2 = [top] ∧
    ((reshuffle shuffle top rest).1 : Multiset String) =
      ((top :: rest : List String) : Multiset String) - {top} := by
  refine ⟨rfl, ?_⟩
  show ((shuffle rest : List String) : Multiset String) = _
  rw [Multiset.coe_eq_coe.mpr (hperm rest), ← Multiset.cons_coe,
    Multiset.sub_singleton, Multiset.erase_cons_head]

theorem reshuffle_spec_witness :
    (∀ l : List String, (id l).Perm l) ∧
    ((reshuffle id "A-S" ["K-H"]).2 = ["A-S"] ∧
      ((reshuffle id "A-S" ["K-H"]).1 : Multiset String) =
        ((["A-S", "K-H"] : List String) : Multiset String) - {"A-S"}) :=
  ⟨fun l => List.Perm.refl l,
   reshuffle_spec id (fun l => List.Perm.refl l) "A-S" ["K-H"]⟩

theorem sum_hands_card (players : List PlayerState)
    (h4 : ∀ p ∈ players, p.hand.length = 4) :
    ((players.map (fun p => (p.hand : Multiset String))).sum).card =
      4 * players.length := by
  induction players with
  | nil => simp
  | cons q qs ih =>
      simp only [List.map_cons, List.sum_cons, Multiset.card_add,
        List.length_cons]
      rw [ih (fun p hp => h4 p (List.mem_cons_of_mem q hp))]
      have hq : (q.hand : Multiset String).card = 4 := by
        rw [Multiset.coe_card]
        exact h4 q (List.mem_cons_self q qs)
      omega

/-- C5: reachable states satisfy the invariant, and in any invariant state
with an empty deck the discard pile holds at least two cards, the reshuffle
yields a non-empty deck, and a draw request never fails. -/
theorem draw_never_fails :
    (∀ s : GameState, Reachable s → Inv s) ∧
    (∀ s : GameState, Inv s → s.deck = [] →
      2 ≤ s.discard_pile.length ∧
      (∀ shuffle : List String → List String, (∀ l, (shuffle l).Perm l) →
        (reshuffle shuffle (s.discard_pile.headD "") s.discard_pile.tail).1 ≠ []) ∧
      (∀ (c : MoveChoice) (i : Fin s.players.length),
        (∀ l, (c.shuffle l).Perm l) → c.action = Action.draw →
        random_make_move c s.deck s.discard_pile (s.players.get i) ≠ none)) := by
  refine ⟨reachable_inv, ?_⟩
  intro s hinv hdeck
  obtain ⟨htot, hh4, hp2, hp4⟩ := hinv
  have hcard : (total_cards s).card = 52 := by
    rw [htot]
    decide
  have hsum := sum_hands_card s.players hh4
  have hclen : 2 ≤ s.discard_pile.length := by
    have hexp : (total_cards s).card =
        s.deck.length + s.discard_pile.length + 4 * s.players.length := by
      show ((s.deck : Multiset String) + (s.discard_pile : Multiset String) +
        (s.players.map (fun p => (p.hand : Multiset String))).sum).card = _
      rw [Multiset.card_add, Multiset.card_add, hsum, Multiset.coe_card,
        Multiset.coe_card]
    rw [hdeck] at hexp
    simp only [List.length_nil] at hexp
    omega
  refine ⟨hclen, ?_, ?_⟩
  · intro shuffle hperm hnil
    have hlen : (shuffle s.discard_pile.tail).length =
        s.discard_pile.tail.length := (hperm _).length_eq
    have : (reshuffle shuffle (s.discard_pile.headD "") s.discard_pile.tail).1 =
        shuffle s.discard_pile.tail := rfl
    rw [this] at hnil
    rw [hnil] at hlen
    simp only [List.length_nil, List.length_tail] at hlen
    omega
  · intro c i hperm hact hnone
    cases hd : s.discard_pile with
    | nil => rw [hd] at hclen; simp at hclen
    | cons top rest =>
        have hrest : rest ≠ [] := by
          intro hr
          rw [hd, hr] at hclen
          simp at hclen
        rw [hd, hdeck] at hnone
        simp only [random_make_move, hact, draw_or_take, List.isEmpty_nil,
          if_true, reshuffle] at hnone
        cases hsr : c.shuffle rest with
        | nil =>
            have hle := (hperm rest).length_eq
            rw [hsr] at hle
            simp only [List.length_nil] at hle
            have hrl : 0 < rest.length := List.length_pos.mpr hrest
            omega
        | cons e es =>
            rw [hsr] at hnone
            by_cases hsw : c.swap
            · by_cases hfd : ((List.range 4).filter
                  (fun j => j ∉ (s.players.get i).face_up_indices)).isEmpty
              · simp [hsw, random_swap_card, hfd] at hnone
              · simp [hsw, random_swap_card, hfd] at hnone
            · simp [hsw] at hnone

theorem draw_never_fails_witness :
    Inv c5_state ∧ c5_state.deck = [] ∧
    (2 ≤ c5_state.discard_pile.length ∧
      (∀ shuffle : List String → List String, (∀ l, (shuffle l).Perm l) →
        (reshuffle shuffle (c5_state.discard_pile.headD "")
          c5_state.discard_pile.tail).1 ≠ []) ∧
      (∀ (c : MoveChoice) (i : Fin c5_state.players.length),
        (∀ l, (c.shuffle l).Perm l) → c.action = Action.draw →
        random_make_move c c5_state.deck c5_state.discard_pile
          (c5_state.players.get i) ≠ none)) :=
  have hinv : Inv c5_state := ⟨by decide, by decide, by decide, by decide⟩
  ⟨hinv, rfl, draw_never_fails.2 c5_state hinv rfl⟩

theorem fu_step_facts (fu fu1 : Finset Nat) (hsub : fu ⊆ {0, 1, 2, 3})
    (hshape : fu1 = fu ∨ ∃ j, j < 4 ∧ fu1 = insert j fu) :
    fu ⊆ fu1 ∧ (fu1 \ fu).card ≤ 1 ∧ fu1 ⊆ {0, 1, 2, 3} ∧
    (fu1.card = 4 ↔ fu1 = {0, 1, 2, 3}) := by
  have hfour : ({0, 1, 2, 3} : Finset Nat).card = 4 := by decide
  rcases hshape with rfl | ⟨j, hj, rfl⟩
  · refine ⟨Finset.Subset.refl _, by simp, hsub, ?_⟩
    constructor
    · intro hc
      exact Finset.eq_of_subset_of_card_le hsub (by omega)
    · intro he
      rw [he, hfour]
  · have hjmem : j ∈ ({0, 1, 2, 3} : Finset Nat) := by
      simp only [Finset.mem_insert, Finset.mem_singleton]
      omega
    have hins : insert j fu ⊆ {0, 1, 2, 3} := by
      intro x hx
      rcases Finset.mem_insert.mp hx with rfl | hx
      · exact hjmem
      · exact hsub hx
    refine ⟨Finset.subset_insert j fu, ?_, hins, ?_⟩
    · have : insert j fu \ fu ⊆ {j} := by
        intro x hx
        rcases Finset.mem_sdiff.mp hx with ⟨hx1, hx2⟩
        rcases Finset.mem_insert.mp hx1 with rfl | hx1
        · exact Finset.mem_singleton_self x
        · exact absurd hx1 hx2
      calc (insert j fu \ fu).card ≤ ({j} : Finset Nat).card :=
            Finset.card_le_card this
        _ = 1 := Finset.card_singleton j
    · constructor
      · intro hc
        exact Finset.eq_of_subset_of_card_le hins (by omega)
      · intro he
        rw [he, hfour]

theorem random_turn_card_over_shape (pick : Nat) (fd : List Nat)
    (fu : Finset Nat) (hfd : ∀ j ∈ fd, j < 4) :
    random_turn_card_over pick fd fu = fu ∨
    ∃ j, j < 4 ∧ random_turn_card_over pick fd fu = insert j fu := by
  unfold random_turn_card_over
  by_cases he : fd.isEmpty
  · left; rw [if_pos he]
  · right
    rw [if_neg he]
    have hne : fd ≠ [] := by
      intro hnil; rw [hnil] at he; exact he rfl
    exact ⟨pick_from pick fd, hfd _ (pick_from_mem pick fd hne), rfl⟩

theorem random_swap_card_shape (pick : Nat) (drawn : String) (fd : List Nat)
    (hand : List String) (fu : Finset Nat) (discard : List String)
    (hfd : ∀ j ∈ fd, j < 4) :
    (random_swap_card pick drawn fd hand fu discard).2.1 = fu ∨
    ∃ j, j < 4 ∧
      (random_swap_card pick drawn fd hand fu discard).2.1 = insert j fu := by
  unfold random_swap_card
  by_cases he : fd.isEmpty
  · left; rw [if_pos he]
  · right
    rw [if_neg he]
    have hne : fd ≠ [] := by
      intro hnil; rw [hnil] at he; exact he rfl
    exact ⟨pick_from pick fd, hfd _ (pick_from_mem pick fd hne), rfl⟩

/-- C10: a `RandomPlayer` move only ever adds face-up slots, at most one per
turn, always within `{0,1,2,3}`, and reports `true` exactly when all four
slots are face up afterwards. -/
theorem face_up_monotone (c : MoveChoice) (deck discard : List String)
    (p : PlayerState) (hsub : p.face_up_indices ⊆ {0, 1, 2, 3})
    (deck1 discard1 : List String) (p1 : PlayerState) (b : Bool)
    (hm : random_make_move c deck discard p = some (deck1, discard1, p1, b)) :
    p.face_up_indices ⊆ p1.face_up_indices ∧
    (p1.face_up_indices \ p.face_up_indices).card ≤ 1 ∧
    p1.face_up_indices ⊆ {0, 1, 2, 3} ∧
    (b = true ↔ p1.face_up_indices = {0, 1, 2, 3}) := by
  have hfd : ∀ j ∈ (List.range 4).filter (fun i => i ∉ p.face_up_indices),
      j < 4 := fun j hj => face_down_mem_lt p.face_up_indices j hj
  have finish : ∀ fu1 : Finset Nat,
      (fu1 = p.face_up_indices ∨
        ∃ j, j < 4 ∧ fu1 = insert j p.face_up_indices) →
      ∀ q : PlayerState, q.face_up_indices = fu1 → ∀ b2 : Bool,
      b2 = (fu1.card == 4) →
      p.face_up_indices ⊆ q.face_up_indices ∧
      (q.face_up_indices \ p.face_up_indices).card ≤ 1 ∧
      q.face_up_indices ⊆ {0, 1, 2, 3} ∧
      (b2 = true ↔ q.face_up_indices = {0, 1, 2, 3}) := by
    intro fu1 hshape q hq b2 hb
    obtain ⟨h1, h2, h3, h4⟩ := fu_step_facts p.face_up_indices fu1 hsub hshape
    rw [hq, hb]
    refine ⟨h1, h2, h3, ?_⟩
    rw [beq_iff_eq]
    exact h4
  cases discard with
  | nil => simp [random_make_move] at hm
  | cons top rest =>
  cases hact : c.action with
  | turnover =>
      simp only [random_make_move, hact, draw_or_take, Option.some.injEq,
        Prod.mk.injEq] at hm
      obtain ⟨h1, h2, h3, h4⟩ := hm
      exact finish _ (random_turn_card_over_shape c.pick _ _ hfd) p1
        (by rw [← h3]) b h4.symm
  | swap_discard =>
      simp only [random_make_move, hact, draw_or_take] at hm
      by_cases hsw : c.swap
      · simp only [hsw, if_true, Option.some.injEq, Prod.mk.injEq] at hm
        obtain ⟨h1, h2, h3, h4⟩ := hm
        exact finish _
          (random_swap_card_shape c.pick top _ p.hand p.face_up_indices rest hfd)
          p1 (by rw [← h3]) b h4.symm
      · simp only [hsw, Bool.false_eq_true, if_false, Option.some.injEq,
          Prod.mk.injEq] at hm
        obtain ⟨h1, h2, h3, h4⟩ := hm
        exact finish _ (random_turn_card_over_shape c.pick _ _ hfd) p1
          (by rw [← h3]) b h4.symm
  | draw =>
      cases deck with
      | nil =>
          cases hsr : c.shuffle rest with
          | nil =>
              simp [random_make_move, hact, draw_or_take, reshuffle, hsr] at hm
          | cons e es =>
              simp only [random_make_move, hact, draw_or_take, reshuffle,
                List.isEmpty_nil, if_true, hsr] at hm
              by_cases hsw : c.swap
              · simp only [hsw, if_true, Option.some.injEq, Prod.mk.injEq] at hm
                obtain ⟨h1, h2, h3, h4⟩ := hm
                exact finish _
                  (random_swap_card_shape c.pick e _ p.hand p.face_up_indices
                    [top] hfd) p1 (by rw [← h3]) b h4.symm
              · simp only [hsw, Bool.false_eq_true, if_false, Option.some.injEq,
                  Prod.mk.injEq] at hm
                obtain ⟨h1, h2, h3, h4⟩ := hm
                exact finish _ (random_turn_card_over_shape c.pick _ _ hfd) p1
                  (by rw [← h3]) b h4.symm
      | cons d ds =>
          simp only [random_make_move, hact, draw_or_take, List.isEmpty_cons,
            Bool.false_eq_true, if_false] at hm
          by_cases hsw : c.swap
          · simp only [hsw, if_true, Option.some.injEq, Prod.mk.injEq] at hm
            obtain ⟨h1, h2, h3, h4⟩ := hm
            exact finish _
              (random_swap_card_shape c.pick d _ p.hand p.face_up_indices
                (top :: rest) hfd) p1 (by rw [← h3]) b h4.symm
          · simp only [hsw, Bool.false_eq_true, if_false, Option.some.injEq,
              Prod.mk.injEq] at hm
            obtain ⟨h1, h2, h3, h4⟩ := hm
            exact finish _ (random_turn_card_over_shape c.pick _ _ hfd) p1
              (by rw [← h3]) b h4.symm

theorem face_up_monotone_witness :
    ((∅ : Finset Nat) ⊆ {0, 1, 2, 3}) ∧
    random_make_move ⟨Action.turnover, false, 0, id⟩ [] ["A-S"]
        ⟨"P", ["2-H", "3-H", "4-H", "5-H"], ∅⟩ =
      some ([], ["A-S"], ⟨"P", ["2-H", "3-H", "4-H", "5-H"], {0}⟩, false) ∧
    ((∅ : Finset Nat) ⊆ ({0} : Finset Nat) ∧
      (({0} : Finset Nat) \ (∅ : Finset Nat)).card ≤ 1 ∧
      ({0} : Finset Nat) ⊆ {0, 1, 2, 3} ∧
      (false = true ↔ ({0} : Finset Nat) = {0, 1, 2, 3})) :=
  ⟨by decide, by decide,
   face_up_monotone ⟨Action.turnover, false, 0, id⟩ [] ["A-S"]
     ⟨"P", ["2-H", "3-H", "4-H", "5-H"], ∅⟩ (by decide) [] ["A-S"]
     ⟨"P", ["2-H", "3-H", "4-H", "5-H"], {0}⟩ false (by decide)⟩

theorem pass_states_succ_flag (move : Nat → GameState → GameState × Bool)
    (s : GameState) (j : Nat) :
    (pass_states move s (j + 1)).is_game_over =
      (move j (pass_states move s j)).2 := rfl

theorem pass_states_flag (move : Nat → GameState → GameState × Bool)
    (s : GameState) (i : Nat) (hover : s.is_game_over = false)
    (hfalse : ∀ k, k < i → (move k (pass_states move s k)).2 = false) :
    ∀ k, k ≤ i → (pass_states move s k).is_game_over = false := by
  intro k hk
  cases k with
  | zero => exact hover
  | succ j =>
      rw [pass_states_succ_flag]
      exact hfalse j (by omega)

theorem play_pass_from_of_over (move : Nat → GameState → GameState × Bool)
    (n k : Nat) (state : GameState) (h : state.is_game_over = true) :
    play_pass_from move n k state = state := by
  rw [play_pass_from]
  by_cases hk : k < n
  · rw [dif_pos hk, if_pos h]
  · rw [dif_neg hk]

theorem play_pass_from_stops (move : Nat → GameState → GameState × Bool)
    (s : GameState) (i : Nat) (hi : i < s.players.length)
    (hover : s.is_game_over = false)
    (hfalse : ∀ k, k < i → (move k (pass_states move s k)).2 = false)
    (htrue : (move i (pass_states move s i)).2 = true) :
    ∀ d k, k + d = i →
      play_pass_from move s.players.length k (pass_states move s k) =
        pass_states move s (i + 1) := by
  intro d
  induction d with
  | zero =>
      intro k hk
      have hki : k = i := by omega
      subst hki
      have hflag : (pass_states move s k).is_game_over = false :=
        pass_states_flag move s k hover hfalse k (Nat.le_refl k)
      rw [play_pass_from, dif_pos hi]
      simp only [hflag, Bool.false_eq_true, if_false]
      show play_pass_from move s.players.length (k + 1)
        (pass_states move s (k + 1)) = pass_states move s (k + 1)
      apply play_pass_from_of_over
      rw [pass_states_succ_flag]
      exact htrue
  | succ d ih =>
      intro k hk
      have hki : k < i := by omega
      have hflag : (pass_states move s k).is_game_over = false :=
        pass_states_flag move s k hover
          (fun j hj => hfalse j (by omega)) k (Nat.le_refl k)
      rw [play_pass_from, dif_pos (by omega : k < s.players.length)]
      simp only [hflag, Bool.false_eq_true, if_false]
      show play_pass_from move s.players.length (k + 1)
        (pass_states move s (k + 1)) = pass_states move s (i + 1)
      exact ih (k + 1) (by omega)

theorem game_loop_of_over (move : Nat → GameState → GameState × Bool)
    (fuel : Nat) (t : GameState) (h : t.is_game_over = true) :
    game_loop move fuel t = some t := by
  cases fuel with
  | zero => simp [game_loop, h]
  | succ f => simp [game_loop, h]

/-- C6: once a player's `make_move` returns `true`, no later player in the
fixed order moves in that pass, the while-loop exits, and scoring runs on
the state exactly as that player's turn left it. -/
theorem round_ends_immediately (move : Nat → GameState → GameState × Bool)
    (s : GameState) (i fuel : Nat) (hover : s.is_game_over = false)
    (hi : i < s.players.length)
    (hfalse : ∀ k, k < i → (move k (pass_states move s k)).2 = false)
    (htrue : (move i (pass_states move s i)).2 = true) :
    play_pass move s = pass_states move s (i + 1) ∧
    game_loop move (fuel + 1) s = some (pass_states move s (i + 1)) ∧
    play_from move (fuel + 1) s =
      some (end_game (pass_states move s (i + 1))) := by
  have hpass : play_pass move s = pass_states move s (i + 1) := by
    show play_pass_from move s.players.length 0 s = _
    have := play_pass_from_stops move s i hi hover hfalse htrue i 0 (by omega)
    exact this
  have hflag1 : (pass_states move s (i + 1)).is_game_over = true := by
    rw [pass_states_succ_flag]
    exact htrue
  have hloop : game_loop move (fuel + 1) s =
      some (pass_states move s (i + 1)) := by
    show (if s.is_game_over then some s
      else game_loop move fuel (play_pass move s)) = _
    simp only [hover, Bool.false_eq_true, if_false]
    rw [hpass]
    exact game_loop_of_over move fuel _ hflag1
  refine ⟨hpass, hloop, ?_⟩
  show (game_loop move (fuel + 1) s).map end_game = _
  rw [hloop]
  rfl

theorem round_ends_immediately_witness :
    (GameState.mk [] [] [⟨"A", [], ∅⟩, ⟨"B", [], ∅⟩] false).is_game_over =
      false ∧
    0 < (GameState.mk [] [] [⟨"A", [], ∅⟩, ⟨"B", [], ∅⟩] false).players.length ∧
    ((fun (_ : Nat) (st : GameState) => (st, true)) 0
      (pass_states (fun (_ : Nat) (st : GameState) => (st, true))
        (GameState.mk [] [] [⟨"A", [], ∅⟩, ⟨"B", [], ∅⟩] false) 0)).2 = true ∧
    (play_pass (fun (_ : Nat) (st : GameState) => (st, true))
        (GameState.mk [] [] [⟨"A", [], ∅⟩, ⟨"B", [], ∅⟩] false) =
      pass_states (fun (_ : Nat) (st : GameState) => (st, true))
        (GameState.mk [] [] [⟨"A", [], ∅⟩, ⟨"B", [], ∅⟩] false) 1) :=
  ⟨rfl, by decide, rfl,
   (round_ends_immediately (fun (_ : Nat) (st : GameState) => (st, true))
     (GameState.mk [] [] [⟨"A", [], ∅⟩, ⟨"B", [], ∅⟩] false) 0 0 rfl
     (by decide) (fun k hk => absurd hk (by omega)) rfl).1⟩

/-- C7: the round result lists every player's `(name, score)`, sorted
ascending by score, and equal scores keep their original relative order
(Python's sort is stable). -/
theorem final_ranking_sorted_stable (s : GameState) :
    (end_game s).Pairwise (fun a b => a.2 ≤ b.2) ∧
    (end_game s).Perm (s.players.map (fun p => (p.name, calculate_score p.hand))) ∧
    (∀ v : Nat, (end_game s).filter (fun x => x.2 == v) =
      (s.players.map (fun p => (p.name, calculate_score p.hand))).filter
        (fun x => x.2 == v)) := by
  have htrans : ∀ (a b c : String × Nat),
      (fun a b : String × Nat => decide (a.2 ≤ b.2)) a b = true →
      (fun a b : String × Nat => decide (a.2 ≤ b.2)) b c = true →
      (fun a b : String × Nat => decide (a.2 ≤ b.2)) a c = true := by
    intro a b c hab hbc
    simp only [decide_eq_true_eq] at *
    omega
  have htotal : ∀ (a b : String × Nat),
      ((fun a b : String × Nat => decide (a.2 ≤ b.2)) a b ||
       (fun a b : String × Nat => decide (a.2 ≤ b.2)) b a) = true := by
    intro a b
    simp only [Bool.or_eq_true, decide_eq_true_eq]
    omega
  have hunfold : end_game s =
      (s.players.map (fun p => (p.name, calculate_score p.hand))).mergeSort
        (fun a b => decide (a.2 ≤ b.2)) := rfl
  refine ⟨?_, ?_, ?_⟩
  · rw [hunfold]
    exact (List.sorted_mergeSort htrans htotal _).imp
      (fun hab => by simpa using hab)
  · rw [hunfold]
    exact List.mergeSort_perm _ _
  · intro v
    have hc_pair : ((s.players.map
        (fun p => (p.name, calculate_score p.hand))).filter
          (fun x => x.2 == v)).Pairwise
        (fun a b : String × Nat => decide (a.2 ≤ b.2)) := by
      apply List.pairwise_of_forall_mem_list
      intro a ha b hb
      have ha2 := (List.mem_filter.mp ha).2
      have hb2 := (List.mem_filter.mp hb).2
      simp only [beq_iff_eq] at ha2 hb2
      simp only [decide_eq_true_eq, ha2, hb2, le_refl]
    have hsub2 := List.sublist_mergeSort htrans htotal hc_pair
      (List.filter_sublist (s.players.map
        (fun p => (p.name, calculate_score p.hand))))
    have hfix : ((s.players.map
        (fun p => (p.name, calculate_score p.hand))).filter
          (fun x => x.2 == v)).filter (fun x => x.2 == v) =
        (s.players.map (fun p => (p.name, calculate_score p.hand))).filter
          (fun x => x.2 == v) :=
      List.filter_eq_self.mpr (fun a ha => (List.mem_filter.mp ha).2)
    have hsub3 : List.Sublist ((s.players.map
        (fun p => (p.name, calculate_score p.hand))).filter
          (fun x => x.2 == v)) ((end_game s).filter (fun x => x.2 == v)) := by
      rw [← hfix, hunfold]
      exact List.Sublist.filter _ hsub2
    have hperm2 : ((end_game s).filter (fun x => x.2 == v)).Perm
        ((s.players.map (fun p => (p.name, calculate_score p.hand))).filter
          (fun x => x.2 == v)) := by
      rw [hunfold]
      exact (List.mergeSort_perm _ _).filter _
    exact (List.Sublist.eq_of_length hsub3 hperm2.length_eq.symm).symm

theorem greedy_max_fold_spec (hand : List String) :
    ∀ (l : List Nat) (acc : Int × Nat),
      acc.1 = (get_card_value (hand.getD acc.2 "") : Int) →
      ((l.foldl (greedy_max_step hand) acc).1 =
        (get_card_value
          (hand.getD (l.foldl (greedy_max_step hand) acc).2 "") : Int)) ∧
      acc.1 ≤ (l.foldl (greedy_max_step hand) acc).1 ∧
      (∀ j ∈ l, (get_card_value (hand.getD j "") : Int) ≤
        (l.foldl (greedy_max_step hand) acc).1) := by
  intro l
  induction l with
  | nil =>
      intro acc hacc
      exact ⟨hacc, le_refl _, by simp⟩
  | cons x xs ih =>
      intro acc hacc
      rw [List.foldl_cons]
      by_cases hc : ((get_card_value (hand.getD x "") : Int) > acc.1)
      · have hstep : greedy_max_step hand acc x =
            ((get_card_value (hand.getD x "") : Int), x) := by
          unfold greedy_max_step
          rw [if_pos hc]
        rw [hstep]
        obtain ⟨h1, h2, h3⟩ := ih ((get_card_value (hand.getD x "") : Int), x) rfl
        refine ⟨h1, le_trans (le_of_lt hc) h2, ?_⟩
        intro j hj
        rcases List.mem_cons.mp hj with rfl | hj
        · exact h2
        · exact h3 j hj
      · have hstep : greedy_max_step hand acc x = acc := by
          unfold greedy_max_step
          rw [if_neg hc]
        rw [hstep]
        obtain ⟨h1, h2, h3⟩ := ih acc hacc
        refine ⟨h1, h2, ?_⟩
        intro j hj
        rcases List.mem_cons.mp hj with rfl | hj
        · exact le_trans (not_lt.mp hc) h2
        · exact h3 j hj

theorem greedy_swap_target_max (hand : List String) (face_down : List Nat)
    (h : face_down ≠ []) :
    ∀ j ∈ face_down, get_card_value (hand.getD j "") ≤
      get_card_value (hand.getD (greedy_swap_target hand face_down) "") := by
  obtain ⟨x, xs, rfl⟩ := List.exists_cons_of_ne_nil h
  intro j hj
  unfold greedy_swap_target
  rw [List.foldl_cons, greedy_max_step_first]
  obtain ⟨h1, h2, h3⟩ := greedy_max_fold_spec hand xs
    ((get_card_value (hand.getD x "") : Int), x) rfl
  rcases List.mem_cons.mp hj with rfl | hj
  · have h2c := h2
    dsimp only at h2c
    rw [h1] at h2c
    exact_mod_cast h2c
  · have h3c := h3 j hj
    rw [h1] at h3c
    exact_mod_cast h3c

theorem greedy_min_step_cases (hand : List String) (acc : Nat × Nat)
    (idx : Nat) :
    (greedy_min_step hand acc idx).2 = acc.2 ∨
      (greedy_min_step hand acc idx).2 = idx := by
  unfold greedy_min_step
  by_cases hc : (get_card_value (hand.getD idx "") < acc.1)
  · right; rw [if_pos hc]
  · left; rw [if_neg hc]

theorem greedy_min_fold_spec (hand : List String) :
    ∀ (l : List Nat) (acc : Nat × Nat),
      acc.1 = get_card_value (hand.getD acc.2 "") →
      ((l.foldl (greedy_min_step hand) acc).1 =
        get_card_value (hand.getD (l.foldl (greedy_min_step hand) acc).2 "")) ∧
      (l.foldl (greedy_min_step hand) acc).1 ≤ acc.1 ∧
      (∀ j ∈ l, (l.foldl (greedy_min_step hand) acc).1 ≤
        get_card_value (hand.getD j "")) := by
  intro l
  induction l with
  | nil =>
      intro acc hacc
      exact ⟨hacc, le_refl _, by simp⟩
  | cons x xs ih =>
      intro acc hacc
      rw [List.foldl_cons]
      by_cases hc : (get_card_value (hand.getD x "") < acc.1)
      · have hstep : greedy_min_step hand acc x =
            (get_card_value (hand.getD x ""), x) := by
          unfold greedy_min_step
          rw [if_pos hc]
        rw [hstep]
        obtain ⟨h1, h2, h3⟩ := ih (get_card_value (hand.getD x ""), x) rfl
        refine ⟨h1, le_trans h2 (le_of_lt hc), ?_⟩
        intro j hj
        rcases List.mem_cons.mp hj with rfl | hj
        · exact h2
        · exact h3 j hj
      · have hstep : greedy_min_step hand acc x = acc := by
          unfold greedy_min_step
          rw [if_neg hc]
        rw [hstep]
        obtain ⟨h1, h2, h3⟩ := ih acc hacc
        refine ⟨h1, h2, ?_⟩
        intro j hj
        rcases List.mem_cons.mp hj with rfl | hj
        · exact le_trans h2 (not_lt.mp hc)
        · exact h3 j hj

theorem greedy_turn_target_facts (hand : List String) (face_down : List Nat)
    (h : face_down ≠ [])
    (hv : ∀ j ∈ face_down, get_card_value (hand.getD j "") < 999) :
    greedy_turn_target hand face_down ∈ face_down ∧
    ∀ j ∈ face_down,
      get_card_value (hand.getD (greedy_turn_target hand face_down) "") ≤
        get_card_value (hand.getD j "") := by
  obtain ⟨x, xs, rfl⟩ := List.exists_cons_of_ne_nil h
  have hfirst : greedy_min_step hand (999, 0) x =
      (get_card_value (hand.getD x ""), x) := by
    unfold greedy_min_step
    rw [if_pos (hv x (List.mem_cons_self x xs))]
  constructor
  · unfold greedy_turn_target
    rw [List.foldl_cons, hfirst]
    rcases foldl_pick_snd (greedy_min_step hand) (greedy_min_step_cases hand)
        xs (get_card_value (hand.getD x ""), x) with hc | hc
    · rw [hc]; exact List.mem_cons_self x xs
    · exact List.mem_cons_of_mem x hc
  · intro j hj
    unfold greedy_turn_target
    rw [List.foldl_cons, hfirst]
    obtain ⟨h1, h2, h3⟩ := greedy_min_fold_spec hand xs
      (get_card_value (hand.getD x ""), x) rfl
    rcases List.mem_cons.mp hj with rfl | hj
    · rw [← h1]; exact h2
    · rw [← h1]; exact h3 j hj

/-- C8: the greedy player takes the discard top iff its value is below 6,
otherwise draws; a held card of value below 6 is swapped into the face-down
slot of greatest value (discarding the replaced card), otherwise it is
discarded and the face-down slot of least value is turned over. -/
theorem greedy_policy :
    (∀ top : String, get_card_value top < 6 →
      greedy_choose_action top = Action.swap_discard) ∧
    (∀ top : String, 6 ≤ get_card_value top →
      greedy_choose_action top = Action.draw) ∧
    (∀ drawn : String,
      greedy_choose_swap_or_discard drawn = true ↔ get_card_value drawn < 6) ∧
    (∀ (hand : List String) (face_down : List Nat), face_down ≠ [] →
      greedy_swap_target hand face_down ∈ face_down ∧
      ∀ j ∈ face_down, get_card_value (hand.getD j "") ≤
        get_card_value (hand.getD (greedy_swap_target hand face_down) "")) ∧
    (∀ (hand : List String) (face_down : List Nat), face_down ≠ [] →
      (∀ j ∈ face_down, get_card_value (hand.getD j "") < 999) →
      greedy_turn_target hand face_down ∈ face_down ∧
      ∀ j ∈ face_down,
        get_card_value (hand.getD (greedy_turn_target hand face_down) "") ≤
          get_card_value (hand.getD j "")) ∧
    (∀ (shuffle : List String → List String) (deck rest : List String)
        (top : String) (p : PlayerState),
      (List.range 4).filter (fun i => i ∉ p.face_up_indices) ≠ [] →
      get_card_value top < 6 →
      greedy_make_move shuffle deck (top :: rest) p =
        some (deck,
          p.hand.getD (greedy_swap_target p.hand
            ((List.range 4).filter (fun i => i ∉ p.face_up_indices))) "" :: rest,
          PlayerState.mk p.name
            (p.hand.set (greedy_swap_target p.hand
              ((List.range 4).filter (fun i => i ∉ p.face_up_indices))) top)
            (insert (greedy_swap_target p.hand
              ((List.range 4).filter (fun i => i ∉ p.face_up_indices)))
              p.face_up_indices),
          ((insert (greedy_swap_target p.hand
            ((List.range 4).filter (fun i => i ∉ p.face_up_indices)))
            p.face_up_indices).card == 4))) ∧
    (∀ (shuffle : List String → List String) (ds rest : List String)
        (d top : String) (p : PlayerState),
      (List.range 4).filter (fun i => i ∉ p.face_up_indices) ≠ [] →
      6 ≤ get_card_value top → get_card_value d < 6 →
      greedy_make_move shuffle (d :: ds) (top :: rest) p =
        some (ds,
          p.hand.getD (greedy_swap_target p.hand
            ((List.range 4).filter (fun i => i ∉ p.face_up_indices))) "" ::
            top :: rest,
          PlayerState.mk p.name
            (p.hand.set (greedy_swap_target p.hand
              ((List.range 4).filter (fun i => i ∉ p.face_up_indices))) d)
            (insert (greedy_swap_target p.hand
              ((List.range 4).filter (fun i => i ∉ p.face_up_indices)))
              p.face_up_indices),
          ((insert (greedy_swap_target p.hand
            ((List.range 4).filter (fun i => i ∉ p.face_up_indices)))
            p.face_up_indices).card == 4))) ∧
    (∀ (shuffle : List String → List String) (ds rest : List String)
        (d top : String) (p : PlayerState),
      (List.range 4).filter (fun i => i ∉ p.face_up_indices) ≠ [] →
      6 ≤ get_card_value top → 6 ≤ get_card_value d →
      greedy_make_move shuffle (d :: ds) (top :: rest) p =
        some (ds, d :: top :: rest,
          PlayerState.mk p.name p.hand
            (insert (greedy_turn_target p.hand
              ((List.range 4).filter (fun i => i ∉ p.face_up_indices)))
              p.face_up_indices),
          ((insert (greedy_turn_target p.hand
            ((List.range 4).filter (fun i => i ∉ p.face_up_indices)))
            p.face_up_indices).card == 4))) := by
  refine ⟨?_, ?_, ?_, ?_, ?_, ?_, ?_, ?_⟩
  · intro top hv
    simp [greedy_choose_action, hv]
  · intro top hv
    have hnv : ¬ get_card_value top < 6 := by omega
    simp [greedy_choose_action, hnv]
  · intro drawn
    simp [greedy_choose_swap_or_discard]
  · intro hand face_down h
    exact ⟨greedy_swap_target_mem hand face_down h,
      greedy_swap_target_max hand face_down h⟩
  · intro hand face_down h hv
    exact greedy_turn_target_facts hand face_down h hv
  · intro shuffle deck rest top p hfd hv
    have hfde : ((List.range 4).filter
        (fun i => i ∉ p.face_up_indices)).isEmpty = false := by
      simpa using hfd
    simp only [greedy_make_move, greedy_choose_action, hv, if_true,
      draw_or_take, greedy_choose_swap_or_discard, decide_True,
      greedy_swap_card, hfde, Bool.false_eq_true, if_false]
  · intro shuffle ds rest d top p hfd hv hd
    have hfde : ((List.range 4).filter
        (fun i => i ∉ p.face_up_indices)).isEmpty = false := by
      simpa using hfd
    have hnv : ¬ get_card_value top < 6 := by omega
    simp only [greedy_make_move, greedy_choose_action, hnv,
      Bool.false_eq_true, if_false, draw_or_take, List.isEmpty_cons,
      greedy_choose_swap_or_discard, hd, decide_True, if_true,
      greedy_swap_card, hfde]
  · intro shuffle ds rest d top p hfd hv hd
    have hfde : ((List.range 4).filter
        (fun i => i ∉ p.face_up_indices)).isEmpty = false := by
      simpa using hfd
    have hnv : ¬ get_card_value top < 6 := by omega
    have hnd : ¬ get_card_value d < 6 := by omega
    simp only [greedy_make_move, greedy_choose_action, hnv,
      Bool.false_eq_true, if_false, draw_or_take, List.isEmpty_cons,
      greedy_choose_swap_or_discard, hnd, decide_False,
      greedy_turn_card_over, hfde]

theorem greedy_policy_witness :
    ((List.range 4).filter
        (fun i => i ∉ (PlayerState.mk "P" ["9-H", "8-D", "7-C", "K-S"]
          ∅).face_up_indices) ≠ [] ∧
      get_card_value "2-H" < 6) ∧
    greedy_make_move id [] ("2-H" :: [])
        (PlayerState.mk "P" ["9-H", "8-D", "7-C", "K-S"] ∅) =
      some ([],
        (PlayerState.mk "P" ["9-H", "8-D", "7-C", "K-S"] ∅).hand.getD
          (greedy_swap_target
            (PlayerState.mk "P" ["9-H", "8-D", "7-C", "K-S"] ∅).hand
            ((List.range 4).filter
              (fun i => i ∉ (PlayerState.mk "P" ["9-H", "8-D", "7-C", "K-S"]
                ∅).face_up_indices))) "" :: [],
        PlayerState.mk (PlayerState.mk "P" ["9-H", "8-D", "7-C", "K-S"] ∅).name
          ((PlayerState.mk "P" ["9-H", "8-D", "7-C", "K-S"] ∅).hand.set
            (greedy_swap_target
              (PlayerState.mk "P" ["9-H", "8-D", "7-C", "K-S"] ∅).hand
              ((List.range 4).filter
                (fun i => i ∉ (PlayerState.mk "P" ["9-H", "8-D", "7-C", "K-S"]
                  ∅).face_up_indices))) "2-H")
          (insert
            (greedy_swap_target
              (PlayerState.mk "P" ["9-H", "8-D", "7-C", "K-S"] ∅).hand
              ((List.range 4).filter
                (fun i => i ∉ (PlayerState.mk "P" ["9-H", "8-D", "7-C", "K-S"]
                  ∅).face_up_indices)))
            (PlayerState.mk "P" ["9-H", "8-D", "7-C", "K-S"] ∅).face_up_indices),
        ((insert
            (greedy_swap_target
              (PlayerState.mk "P" ["9-H", "8-D", "7-C", "K-S"] ∅).hand
              ((List.range 4).filter
                (fun i => i ∉ (PlayerState.mk "P" ["9-H", "8-D", "7-C", "K-S"]
                  ∅).face_up_indices)))
            (PlayerState.mk "P" ["9-H", "8-D", "7-C", "K-S"]
              ∅).face_up_indices).card == 4)) :=
  ⟨⟨by decide, by decide⟩,
   greedy_policy.2.2.2.2.2.1 id [] [] "2-H"
     (PlayerState.mk "P" ["9-H", "8-D", "7-C", "K-S"] ∅) (by decide) (by decide)⟩

/-- C9: construction fails (raises) exactly when the player count is outside
2-4, or a supplied player list has the wrong length, or a supplied element is
not a Player instance; every valid input constructs successfully. -/
theorem construction_validation (shuffle : List String → List String)
    (n : Nat) (players : Option (List Candidate)) :
    ((∃ e, golf_init shuffle n players = Except.error e) ↔
      (n < 2 ∨ 4 < n ∨
        (∃ l, players = some l ∧ l.length ≠ n) ∨
        (∃ l, players = some l ∧ ∃ c ∈ l, c.is_player_instance = false))) ∧
    (¬ (n < 2 ∨ 4 < n ∨
        (∃ l, players = some l ∧ l.length ≠ n) ∨
        (∃ l, players = some l ∧ ∃ c ∈ l, c.is_player_instance = false)) →
      ∃ g, golf_init shuffle n players = Except.ok g) := by
  by_cases hn : 2 ≤ n ∧ n ≤ 4
  · obtain ⟨h2, h4⟩ := hn
    cases players with
    | none =>
        refine ⟨⟨?_, ?_⟩, ?_⟩
        · rintro ⟨e, he⟩
          simp [golf_init, h2, h4] at he
        · rintro (h | h | ⟨l, hl, _⟩ | ⟨l, hl, _⟩)
          · omega
          · omega
          · exact Option.noConfusion hl
          · exact Option.noConfusion hl
        · intro _
          refine ⟨GameState.mk (shuffle full_deck_list) [] (initial_players n)
            false, ?_⟩
          simp [golf_init, h2, h4]
    | some l =>
        by_cases hl : l.length = n
        · by_cases hall : ∀ c ∈ l, c.is_player_instance = true
          · have hany : l.any (fun c => !c.is_player_instance) = false := by
              rw [List.any_eq_false]
              intro c hc
              simp [hall c hc]
            refine ⟨⟨?_, ?_⟩, ?_⟩
            · rintro ⟨e, he⟩
              simp [golf_init, h2, h4, hl, hany] at he
            · rintro (h | h | ⟨l2, hl2, hlen⟩ | ⟨l2, hl2, c, hc, hcb⟩)
              · omega
              · omega
              · rw [Option.some.injEq] at hl2
                subst hl2
                exact absurd hl hlen
              · rw [Option.some.injEq] at hl2
                subst hl2
                rw [hall c hc] at hcb
                exact Bool.noConfusion hcb
            · intro _
              refine ⟨GameState.mk (shuffle full_deck_list) []
                (l.map Candidate.state) false, ?_⟩
              simp [golf_init, h2, h4, hl, hany]
          · have hbad : ∃ c ∈ l, c.is_player_instance = false := by
              push_neg at hall
              obtain ⟨c, hc, hcb⟩ := hall
              exact ⟨c, hc, by simpa using hcb⟩
            have hany : l.any (fun c => !c.is_player_instance) = true := by
              rw [List.any_eq_true]
              obtain ⟨c, hc, hcb⟩ := hbad
              exact ⟨c, hc, by simp [hcb]⟩
            refine ⟨⟨?_, ?_⟩, ?_⟩
            · intro _
              exact Or.inr (Or.inr (Or.inr ⟨l, rfl, hbad⟩))
            · intro _
              refine ⟨"All players must be instances of the Player class.", ?_⟩
              simp [golf_init, h2, h4, hl, hany]
            · intro hB
              exact absurd (Or.inr (Or.inr (Or.inr ⟨l, rfl, hbad⟩))) hB
        · refine ⟨⟨?_, ?_⟩, ?_⟩
          · intro _
            exact Or.inr (Or.inr (Or.inl ⟨l, rfl, hl⟩))
          · intro _
            refine ⟨"Expected a different number of players.", ?_⟩
            simp [golf_init, h2, h4, hl]
          · intro hB
            exact absurd (Or.inr (Or.inr (Or.inl ⟨l, rfl, hl⟩))) hB
  · have hcount : n < 2 ∨ 4 < n := by omega
    have hB : n < 2 ∨ 4 < n ∨
        (∃ l, players = some l ∧ l.length ≠ n) ∨
        (∃ l, players = some l ∧ ∃ c ∈ l, c.is_player_instance = false) := by
      rcases hcount with h | h
      · exact Or.inl h
      · exact Or.inr (Or.inl h)
    refine ⟨⟨?_, ?_⟩, ?_⟩
    · intro _
      exact hB
    · intro _
      refine ⟨"The game supports 2 to 4 players.", ?_⟩
      simp [golf_init, hn]
    · intro hnB
      exact absurd hB hnB

theorem construction_validation_witness :
    (∃ e, golf_init id 5 none = Except.error e) ∧
    (¬ (2 < 2 ∨ 4 < 2 ∨
        (∃ l, (none : Option (List Candidate)) = some l ∧ l.length ≠ 2) ∨
        (∃ l, (none : Option (List Candidate)) = some l ∧
          ∃ c ∈ l, c.is_player_instance = false)) →
      ∃ g, golf_init id 2 none = Except.ok g) :=
  ⟨(construction_validation id 5 none).1.mpr (Or.inr (Or.inl (by omega))),
   (construction_validation id 2 none).2⟩
